import Mathlib

/-!
# Schema-typed scalar decoder (package `decoder`, file `unmarshaler.go`)

A shallow embedding of `baseUnmarshaler`, the scalar readers `decodeInt`,
`decodeBool`, `decodeFloat`, `decodeString`, the temporal reader `decodeTime`
and the layout-inferring `parseTime`, followed by theorems about them.

Conventions of the embedding

* A Go function returning `(value, error)` returns a pair whose second
  component is `Option String`; `none` is the `nil` error.
* The JSON decoder `*gojay.Decoder` is a cursor over the remaining tokens.
* The destination `dest` is the memory it points at (`Slot`); numeric memory
  is a little-endian bit pattern, so a store of `w` bits replaces the low `w`
  bits and a load of `w` bits reads them back.
* `int` is 64 bits wide (a 64-bit platform), as is `uint`.
* Floating point arithmetic and single-layout time parsing are operations of
  the Go runtime; they are taken as a parameter (`Host`).
-/

namespace Unmarshaler

/-! ## Destination types (`reflect.Type`) -/

/-- The kinds of `reflect.Kind`, in the order of the Go declaration. -/
inductive Kind
  | Invalid | Bool
  | Int | Int8 | Int16 | Int32 | Int64
  | Uint | Uint8 | Uint16 | Uint32 | Uint64 | Uintptr
  | Float32 | Float64 | Complex64 | Complex128
  | Array | Chan | Func | Interface | Map | Ptr | Slice | String | Struct
  | UnsafePointer
  deriving DecidableEq, Repr

/-- What `baseUnmarshaler` asks of a `reflect.Type`: its kind, its printed
name, and whether it converts to `time.Time` and to `*time.Time`. -/
structure RType where
  kind : Kind
  name : String := ""
  convertibleToTime : Bool := false
  convertibleToTimePtr : Bool := false
  deriving DecidableEq, Repr

/-! ## Values of the Go runtime -/

/-- A `float64`, as its IEEE 754 binary64 bit pattern. -/
structure Float64 where
  bits : Nat
  deriving DecidableEq, Repr

/-- A `float32`, as its IEEE 754 binary32 bit pattern. -/
structure Float32 where
  bits : Nat
  deriving DecidableEq, Repr

/-- A `time.Time`, as the instant it denotes: nanoseconds since the Unix
epoch. -/
structure Time where
  unixNano : Int
  deriving DecidableEq, Repr

/-- The zero `time.Time{}`: January 1, year 1, 00:00:00 UTC. -/
def Time.zero : Time := ⟨-62135596800 * 1000000000⟩

/-- Reduction of an integer to `w` bits, as a bit pattern. -/
def wrapU (w : Nat) (v : Int) : Nat := (v % (2 : Int) ^ w).toNat

/-- Reduction of an integer to `w` bits read as a two's-complement value:
the Go conversions `int8(i)`, `int16(i)`, `int32(i)`, `int64(i)`. -/
def wrapS (w : Nat) (v : Int) : Int :=
  if wrapU w v < 2 ^ (w - 1) then (wrapU w v : Int) else (wrapU w v : Int) - (2 : Int) ^ w

/-- The call `time.Unix(0, nsec)`. -/
def Time.Unix0 (nsec : Int) : Time := ⟨nsec⟩

/-- The method `t.UnixNano()`, an `int64`. -/
def Time.UnixNano (t : Time) : Int := wrapS 64 t.unixNano

/-- The method `t.Unix()`: whole seconds since the epoch, rounded down. -/
def Time.Unix (t : Time) : Int := t.unixNano / 1000000000

/-- The operations of the Go runtime the decoder calls and the embedding does
not define: float parsing and conversion, and `time.Parse`. A failed
`parseFloat` returns a zero value with the error; a failed `timeParse`
returns `time.Time{}` with the error, as `time.Parse` does. -/
structure Host where
  /-- The call `strconv.ParseFloat(s, 64)`. -/
  parseFloat : String → Float64 × Option String
  /-- The conversion `float32(f)`. -/
  toFloat32 : Float64 → Float32
  /-- The expression `int64(f*1000000)`. -/
  micros : Float64 → Int
  /-- The call `time.Parse(layout, value)`. -/
  timeParse : String → String → Time × Option String

/-- The dynamic values (`interface{}`) the decoder can store, tagged with
their concrete Go type. -/
inductive Dyn
  | int (v : Int)
  | int64 (v : Int)
  | float64 (f : Float64)
  | string (s : String)
  | bytes (b : List Nat)
  | bool (b : Bool)
  | time (t : Time)
  | timePtr (t : Time)
  deriving DecidableEq, Repr

/-! ## Destination memory -/

/-- The memory a destination pointer refers to. Numeric and boolean
destinations are raw little-endian memory, held as the number whose low bits
are the first bytes. -/
inductive Slot
  | raw (bits : Nat)
  | str (s : String)
  | iface (v : Option Dyn)
  | slice (b : Option (List Nat))
  | time (t : Time)
  | timePtr (p : Option Time)
  deriving DecidableEq, Repr

/-- The store `*(*intW)(dest) = v` of a `w`-bit integer: the low `w` bits of
the memory are replaced by the pattern of `v`. -/
def storeBits (w : Nat) (v : Int) : Slot → Slot
  | .raw b => .raw (b / 2 ^ w * 2 ^ w + wrapU w v)
  | _ => .raw (wrapU w v)

/-- Reading the first `w` bits of the destination as an unsigned integer. -/
def loadUnsigned (w : Nat) : Slot → Nat
  | .raw b => b % 2 ^ w
  | _ => 0

/-- Reading the first `w` bits of the destination as a signed integer. -/
def loadSigned (w : Nat) (s : Slot) : Int := wrapS w (loadUnsigned w s)

/-! ## The token cursor (`*gojay.Decoder`) -/

/-- One JSON value of the input, as the readers tell them apart:

* `null`;
* `str s`, a quoted string (unescaped);
* `num lit`, an unquoted number that the float reader reads without a
  complaint, such as `1625097600.5`;
* `numOverflow lit`, an unquoted number whose digits overflow a 64-bit
  integer: the float reader delivers zero, returns no error and sets
  `dec.err`;
* `numRejected lit`, an unquoted number the float reader fails on, such as
  `1e20` (an exponent of 20 or more): it returns an error with the cursor past
  the number;
* `other`, another well-formed value (`true`, `false`, an object, an array);
* `bad moved`, bytes that are not a JSON value: a reader fails on them, and
  `moved` tells whether it leaves the cursor past them. -/
inductive Token
  | null
  | str (s : String)
  | num (lit : String)
  | numOverflow (lit : String)
  | numRejected (lit : String)
  | other
  | bad (moved : Bool)
  deriving DecidableEq, Repr

/-- The decoder of the gojay library, which is not part of this repository
and is modelled by what its readers do: the tokens not yet consumed and the
sticky `dec.err`, which the readers set on a value of the wrong type and which
the top-level decode call reports when the walk is over. -/
structure Decoder where
  input : List Token
  err : Option String := none
  deriving DecidableEq, Repr

/-- The method `dec.StringNull(&value)` with `value` initially `nil`: the new
`value`, the returned error, the decoder afterwards. A string is delivered,
`null` leaves `value` at `nil`, a value of another type (a number of any of
the three sorts included) is skipped with `dec.err` set and `nil` returned,
the end of the input returns `nil`, and bytes that are not JSON give an
error. -/
def StringNull (dec : Decoder) : Option String × Option String × Decoder :=
  match dec.input with
  | [] => (none, none, dec)
  | .null :: rest => (none, none, { dec with input := rest })
  | .str s :: rest => (some s, none, { dec with input := rest })
  | .num _ :: rest => (none, none, { input := rest, err := some "invalid unmarshal" })
  | .numOverflow _ :: rest => (none, none, { input := rest, err := some "invalid unmarshal" })
  | .numRejected _ :: rest => (none, none, { input := rest, err := some "invalid unmarshal" })
  | .other :: rest => (none, none, { input := rest, err := some "invalid unmarshal" })
  | .bad moved :: rest =>
    (none, some "invalid JSON",
      { input := if moved then rest else .bad moved :: rest, err := some "invalid JSON" })

/-- The method `dec.Float64Null(&value)` with `value` initially `nil`: the
number read (as its literal; the caller never looks at it), the returned
error, the decoder afterwards. A number is delivered; one whose digits
overflow is delivered as zero with `dec.err` set; one the reader rejects
gives an error with the cursor past it; `null` leaves `value` at `nil`; a
value of another type is skipped with `dec.err` set and `nil` returned; the
end of the input and bytes that are not JSON give an error. -/
def Float64Null (dec : Decoder) : Option String × Option String × Decoder :=
  match dec.input with
  | [] => (none, some "invalid JSON", { dec with err := some "invalid JSON" })
  | .null :: rest => (none, none, { dec with input := rest })
  | .num lit :: rest => (some lit, none, { dec with input := rest })
  | .numOverflow _ :: rest => (some "0", none, { input := rest, err := some "invalid unmarshal" })
  | .numRejected _ :: rest =>
    (none, some "invalid JSON", { input := rest, err := some "invalid JSON" })
  | .str _ :: rest => (none, none, { input := rest, err := some "invalid unmarshal" })
  | .other :: rest => (none, none, { input := rest, err := some "invalid unmarshal" })
  | .bad moved :: rest =>
    (none, some "invalid JSON",
      { input := if moved then rest else .bad moved :: rest, err := some "invalid JSON" })

/-! ## `strconv` -/

/-- The value of a decimal digit. -/
def digitVal (c : Char) : Option Nat :=
  if 48 ≤ c.toNat ∧ c.toNat ≤ 57 then some (c.toNat - 48) else none

/-- Base-10 digits, most significant first, onto an accumulator; `none` when
a character is not a digit. -/
def parseDigits : List Char → Nat → Option Nat
  | [], acc => some acc
  | c :: cs, acc =>
    match digitVal c with
    | some d => parseDigits cs (acc * 10 + d)
    | none => none

/-- The syntax `strconv.Atoi` accepts: an optional sign and at least one
digit, nothing else. -/
def parseSigned (cs : List Char) : Option Int :=
  match cs with
  | [] => none
  | c :: ds =>
    if c = '-' then
      (if ds = [] then none else Option.map (fun (v : Nat) => -(v : Int)) (parseDigits ds 0))
    else if c = '+' then
      (if ds = [] then none else Option.map (fun (v : Nat) => (v : Int)) (parseDigits ds 0))
    else Option.map (fun (v : Nat) => (v : Int)) (parseDigits (c :: ds) 0)

/-- The call `strconv.Atoi(s)` with a 64-bit `int`. -/
def Atoi (s : String) : Int × Option String :=
  match parseSigned s.data with
  | none => (0, some "invalid syntax")
  | some v =>
    if v < -(2 : Int) ^ 63 then (-(2 : Int) ^ 63, some "value out of range")
    else if (2 : Int) ^ 63 ≤ v then ((2 : Int) ^ 63 - 1, some "value out of range")
    else (v, none)

/-- The call `strconv.ParseBool(s)`. -/
def ParseBool (s : String) : Bool × Option String :=
  if s ∈ ["1", "t", "T", "TRUE", "true", "True"] then (true, none)
  else if s ∈ ["0", "f", "F", "FALSE", "false", "False"] then (false, none)
  else (false, some "invalid syntax")

/-! ## `encoding/base64` -/

/-- The alphabet of `base64.StdEncoding`. -/
def b64Alphabet : List Char :=
  "ABCDEFGHIJKLMNOPQRSTUVWXYZabcdefghijklmnopqrstuvwxyz0123456789+/".data

/-- The decode map of `base64.StdEncoding`: the 6-bit value of an alphabet
character, `none` for any other character. -/
def b64Index (c : Char) : Option Nat :=
  if b64Alphabet.indexOf c < 64 then some (b64Alphabet.indexOf c) else none

/-- The quanta of a base64 text from which carriage returns and line feeds
have been removed: four characters give three bytes; the last quantum may end
in `=` (two bytes) or `==` (one byte), after which nothing may follow; a
quantum cut short is an error (the padding is mandatory). `none` is
`CorruptInputError`. -/
def decodeQuanta : List Char → Option (List Nat)
  | [] => some []
  | [_] => none
  | [_, _] => none
  | [_, _, _] => none
  | a :: b :: c :: d :: rest =>
    match b64Index a, b64Index b with
    | some x, some y =>
      if c = '=' then
        (if d = '=' ∧ rest = [] then some [(x * 262144 + y * 4096) / 65536 % 256] else none)
      else
        match b64Index c with
        | none => none
        | some z =>
          if d = '=' then
            (if rest = [] then
              some [(x * 262144 + y * 4096 + z * 64) / 65536 % 256,
                    (x * 262144 + y * 4096 + z * 64) / 256 % 256]
            else none)
          else
            match b64Index d with
            | none => none
            | some u =>
              (decodeQuanta rest).map (fun tl =>
                (x * 262144 + y * 4096 + z * 64 + u) / 65536 % 256 ::
                (x * 262144 + y * 4096 + z * 64 + u) / 256 % 256 ::
                (x * 262144 + y * 4096 + z * 64 + u) % 256 :: tl)
    | _, _ => none

/-- The call `base64.StdEncoding.DecodeString(s)`: line breaks in the text
are ignored, the rest is decoded quantum by quantum. On an error Go also
returns the bytes decoded so far; no caller looks at them, they are left
out. -/
def DecodeString (s : String) : List Nat × Option String :=
  match decodeQuanta (s.data.filter (fun c => !(c = '\n' || c = '\r'))) with
  | some b => (b, none)
  | none => ([], some "illegal base64 data")

/-- The character of a 6-bit value in the standard alphabet. -/
def b64Char (i : Nat) : Char := b64Alphabet.getD i '='

/-- The call `base64.StdEncoding.EncodeToString(b)`, the standard padded
encoding, as a list of characters. -/
def EncodeToString : List Nat → List Char
  | [] => []
  | [a] => [b64Char (a / 4), b64Char (a % 4 * 16), '=', '=']
  | [a, b] => [b64Char (a / 4), b64Char (a % 4 * 16 + b / 16), b64Char (b % 16 * 4), '=']
  | a :: b :: c :: rest =>
    b64Char (a / 4) :: b64Char (a % 4 * 16 + b / 16) ::
      b64Char (b % 16 * 4 + c / 64) :: b64Char (c % 64) :: EncodeToString rest

/-- The call `strconv.Itoa(n)`, the canonical base-10 text of an integer, as
a list of characters. -/
def Itoa (n : Int) : List Char :=
  if n < 0 then '-' :: (Nat.digits 10 n.natAbs).reverse.map (fun d => Char.ofNat (48 + d))
  else if n = 0 then ['0']
  else (Nat.digits 10 n.natAbs).reverse.map (fun d => Char.ofNat (48 + d))

/-! ## Scalar readers -/

/-- The function `decodeInt`: value, presence, error, decoder afterwards. -/
def decodeInt (dec : Decoder) : (Int × Bool × Option String) × Decoder :=
  match StringNull dec with
  | (value, err, dec1) =>
    if err ≠ none ∨ value = none then ((0, false, err), dec1)
    else
      match Atoi (value.getD "") with
      | (i, err) =>
        if err ≠ none then ((0, false, err), dec1)
        else ((i, true, none), dec1)

/-- The function `decodeBool`. -/
def decodeBool (dec : Decoder) : (Bool × Bool × Option String) × Decoder :=
  match StringNull dec with
  | (value, err, dec1) =>
    if err ≠ none ∨ value = none then ((false, false, err), dec1)
    else
      match ParseBool (value.getD "") with
      | (b, err) =>
        if err ≠ none then ((false, false, err), dec1)
        else ((b, true, none), dec1)

/-- The function `decodeFloat`. On a parse failure the source also prints the
call stack to standard output, which is not part of the state modelled. -/
def decodeFloat (H : Host) (dec : Decoder) : (Float64 × Bool × Option String) × Decoder :=
  match StringNull dec with
  | (value, err, dec1) =>
    if err ≠ none ∨ value = none then ((⟨0⟩, false, err), dec1)
    else if value = none then ((⟨0⟩, false, none), dec1)
    else
      match H.parseFloat (value.getD "") with
      | (i, err) =>
        if err ≠ none then ((⟨0⟩, false, err), dec1)
        else ((i, true, none), dec1)

/-- The function `decodeString`. -/
def decodeString (dec : Decoder) : (String × Bool × Option String) × Decoder :=
  match StringNull dec with
  | (value, err, dec1) =>
    if err ≠ none ∨ value = none then (("", false, err), dec1)
    else ((value.getD "", true, none), dec1)

/-! ## Temporal parser -/

/-- The variable `dateLayouts`, with the constants of package `time` written
out. -/
def dateLayouts : List String := [
  "2006-01-02",
  "2006-01-02 15:04:05",
  "2006-01-02 15:04:05.000",
  "2006-01-02T15:04:05.000Z",
  "02-Jan-06",
  "02-Jan-06 15:04:05",
  "02-Jan-06 03:04:05 PM",
  "02-Jan-06 03.04.05.000000 PM",
  "2006-01-02T15:04:05-0700",
  "2006-01-02T15:04:05Z07:00",
  "2006-01-02T15:04:05",
  "2006-01-02T15:04:05Z",
  "Mon, 02 Jan 2006 15:04:05 -0700",
  "Mon, 02 Jan 2006 15:04:05 MST",
  "02 Jan 06 15:04 -0700",
  "02 Jan 06 15:04 MST",
  "Monday, 02-Jan-06 15:04:05 MST",
  "Mon Jan _2 15:04:05 2006",
  "Mon Jan _2 15:04:05 MST 2006",
  "Mon Jan 02 15:04:05 -0700 2006",
  "2006-01-02 15:04:05.999999999 -0700 MST",
  "02 Jan 2006",
  "2006-01-02T15:04:05-0700",
  "2006-01-02 15:04:05 -07:00",
  "2006-01-02 15:04:05 -0700",
  "2006-01-02 15:04:05Z07:00",
  "2006-01-02 15:04:05Z0700",
  "2006-01-02 15:04:05 MST",
  "3:04PM",
  "Jan _2 15:04:05",
  "Jan _2 15:04:05.000",
  "Jan _2 15:04:05.000000",
  "Jan _2 15:04:05.000000000",
  "1/2/06",
  "01/02/06",
  "1/2/2006",
  "01/02/2006",
  "01/02/2006 15:04",
  "01/02/2006 15:04:05",
  "01/02/2006 03:04:05 PM",
  "01/02/2006 03:04:05 PM",
  "2006-01-02 15:04:05.999999999-07:00",
  "2006-01-02T15:04:05.999999999-07:00",
  "2006-01-02 15:04:05.999999999",
  "2006-01-02T15:04:05.999999999",
  "2006-01-02 15:04",
  "2006-01-02T15:04",
  "2006/01/02 15:04:05"]

/-- The loop of `parseTime` over the layouts still to try. The arguments are
the value of the global `dateLayoutCache` and the current values of the
named results `t` and `err`; the result is `t`, `err` and the cache when the
function returns. Each iteration first retries the cached layout, when there
is one, then tries its own layout and records it on success. -/
def parseTimeLoop (H : Host) (s : String) :
    List String → String → Time × Option String → (Time × Option String) × String
  | [], cache, res => (res, cache)
  | layout :: rest, cache, _ =>
    if cache ≠ "" ∧ (H.timeParse cache s).2 = none then
      (((H.timeParse cache s).1, none), cache)
    else if (H.timeParse layout s).2 = none then
      (((H.timeParse layout s).1, none), layout)
    else parseTimeLoop H s rest cache (H.timeParse layout s)

/-- The function `parseTime` on a string argument (`cast.ToString` of a
string is the string), with the global `dateLayoutCache` passed in and
returned. The named results start at `time.Time{}` and `nil`. -/
def parseTime (H : Host) (cache : String) (s : String) : (Time × Option String) × String :=
  parseTimeLoop H s dateLayouts cache (Time.zero, none)

/-- The state a decode function runs in: the decoder it is handed and the
package variable `dateLayoutCache`. -/
structure State where
  dec : Decoder
  dateLayoutCache : String := ""
  deriving DecidableEq, Repr

/-- The function `decodeTime`: the time pointed at by the returned pointer
(`none` is `nil`), presence, error, and the state afterwards. The number read
by `Float64Null` into `valueFlt` is not used: when that read returns no
error, the value is obtained from `decodeFloat` on the same decoder. -/
def decodeTime (H : Host) (st : State) : (Option Time × Bool × Option String) × State :=
  match Float64Null st.dec with
  | (_valueFlt, err, dec1) =>
    if err = none then
      match decodeFloat H dec1 with
      | ((f, ok, err), dec2) =>
        if err ≠ none ∨ !ok then ((none, false, err), { st with dec := dec2 })
        else
          ((some (Time.Unix0 (wrapS 64 (wrapS 64 (H.micros f) * 1000))), true, none),
            { st with dec := dec2 })
    else
      match StringNull dec1 with
      | (valueStr, err, dec2) =>
        if err ≠ none ∨ valueStr = none then ((none, false, err), { st with dec := dec2 })
        else if valueStr = none then ((none, false, none), { st with dec := dec2 })
        else
          match parseTime H st.dateLayoutCache (valueStr.getD "") with
          | ((t, err), cache) =>
            if err ≠ none then ((none, false, err), { dec := dec2, dateLayoutCache := cache })
            else ((some t, true, none), { dec := dec2, dateLayoutCache := cache })

/-! ## Decode functions -/

/-- What a run of a decode function leaves behind: the state, the
destination memory and the returned error. -/
structure Outcome where
  st : State
  dest : Slot
  err : Option String
  deriving DecidableEq, Repr

/-- A decode function `func(dec *gojay.Decoder, dest unsafe.Pointer) error`. -/
abbrev DecodeFn := State → Slot → Outcome

/-- The closures `decodeInt` then `*(*intW)(dest) = intW(i)`, for the widths
64, 32, 16 and 8. -/
def intInto (w : Nat) : DecodeFn := fun st dest =>
  match decodeInt st.dec with
  | ((i, ok, err), dec1) =>
    if err ≠ none ∨ !ok then ⟨{ st with dec := dec1 }, dest, err⟩
    else ⟨{ st with dec := dec1 }, storeBits w (wrapS w i) dest, none⟩

/-- The closures `decodeString` then `*(*string)(dest) = text`. (The one
for an Integer source ends in `return err`, where `err` is `nil`.) -/
def stringInto : DecodeFn := fun st dest =>
  match decodeString st.dec with
  | ((text, ok, err), dec1) =>
    if err ≠ none ∨ !ok then ⟨{ st with dec := dec1 }, dest, err⟩
    else ⟨{ st with dec := dec1 }, .str text, none⟩

/-- The closure `decodeInt` then `*(*interface{})(dest) = i`, where `i` is an
`int`. -/
def intIntoInterface : DecodeFn := fun st dest =>
  match decodeInt st.dec with
  | ((i, ok, err), dec1) =>
    if err ≠ none ∨ !ok then ⟨{ st with dec := dec1 }, dest, err⟩
    else ⟨{ st with dec := dec1 }, .iface (some (.int i)), none⟩

/-- The closure `decodeString`, `base64.StdEncoding.DecodeString`, then
`*(*[]byte)(dest) = data`. -/
def bytesIntoSlice : DecodeFn := fun st dest =>
  match decodeString st.dec with
  | ((text, ok, err), dec1) =>
    if err ≠ none ∨ !ok then ⟨{ st with dec := dec1 }, dest, err⟩
    else
      match DecodeString text with
      | (data, err) =>
        if err ≠ none ∨ !ok then ⟨{ st with dec := dec1 }, dest, err⟩
        else ⟨{ st with dec := dec1 }, .slice (some data), none⟩

/-- The closure `decodeString`, `base64.StdEncoding.DecodeString`, then
`*(*interface{})(dest) = data`. -/
def bytesIntoInterface : DecodeFn := fun st dest =>
  match decodeString st.dec with
  | ((text, ok, err), dec1) =>
    if err ≠ none ∨ !ok then ⟨{ st with dec := dec1 }, dest, err⟩
    else
      match DecodeString text with
      | (data, err) =>
        if err ≠ none ∨ !ok then ⟨{ st with dec := dec1 }, dest, err⟩
        else ⟨{ st with dec := dec1 }, .iface (some (.bytes data)), none⟩

/-- The closure `decodeString` then `*(*interface{})(dest) = text`. -/
def stringIntoInterface : DecodeFn := fun st dest =>
  match decodeString st.dec with
  | ((text, ok, err), dec1) =>
    if err ≠ none ∨ !ok then ⟨{ st with dec := dec1 }, dest, err⟩
    else ⟨{ st with dec := dec1 }, .iface (some (.string text)), none⟩

/-- The closure `decodeFloat` then `*(*float32)(dest) = float32(f)`. -/
def floatInto32 (H : Host) : DecodeFn := fun st dest =>
  match decodeFloat H st.dec with
  | ((f, ok, err), dec1) =>
    if err ≠ none ∨ !ok then ⟨{ st with dec := dec1 }, dest, err⟩
    else ⟨{ st with dec := dec1 }, storeBits 32 (H.toFloat32 f).bits dest, none⟩

/-- The closure `decodeFloat` then `*(*float64)(dest) = float64(f)`. -/
def floatInto64 (H : Host) : DecodeFn := fun st dest =>
  match decodeFloat H st.dec with
  | ((f, ok, err), dec1) =>
    if err ≠ none ∨ !ok then ⟨{ st with dec := dec1 }, dest, err⟩
    else ⟨{ st with dec := dec1 }, storeBits 64 f.bits dest, none⟩

/-- The closure `decodeFloat` then `*(*interface{})(dest) = f`. -/
def floatIntoInterface (H : Host) : DecodeFn := fun st dest =>
  match decodeFloat H st.dec with
  | ((f, ok, err), dec1) =>
    if err ≠ none ∨ !ok then ⟨{ st with dec := dec1 }, dest, err⟩
    else ⟨{ st with dec := dec1 }, .iface (some (.float64 f)), none⟩

/-- The closure `decodeTime` then `*(*int64)(dest) = ts.UnixNano()`. -/
def timeIntoInt64 (H : Host) : DecodeFn := fun st dest =>
  match decodeTime H st with
  | ((ts, ok, err), st1) =>
    if err ≠ none ∨ !ok then ⟨st1, dest, err⟩
    else ⟨st1, storeBits 64 (ts.getD Time.zero).UnixNano dest, none⟩

/-- The closure `decodeTime` then `*(*int32)(dest) = int32(ts.Unix())`. -/
def timeIntoInt32 (H : Host) : DecodeFn := fun st dest =>
  match decodeTime H st with
  | ((ts, ok, err), st1) =>
    if err ≠ none ∨ !ok then ⟨st1, dest, err⟩
    else ⟨st1, storeBits 32 (wrapS 32 (ts.getD Time.zero).Unix) dest, none⟩

/-- The closure `decodeTime` then `*(*interface{})(dest) = ts`, where `ts` is
the `*time.Time` returned by `decodeTime`. -/
def timeIntoInterface (H : Host) : DecodeFn := fun st dest =>
  match decodeTime H st with
  | ((ts, ok, err), st1) =>
    if err ≠ none ∨ !ok then ⟨st1, dest, err⟩
    else ⟨st1, .iface (some (.timePtr (ts.getD Time.zero))), none⟩

/-- The closure `decodeTime` then `*(*time.Time)(dest) = *ts`. -/
def timeIntoStruct (H : Host) : DecodeFn := fun st dest =>
  match decodeTime H st with
  | ((ts, ok, err), st1) =>
    if err ≠ none ∨ !ok then ⟨st1, dest, err⟩
    else if err ≠ none ∨ !ok then ⟨st1, dest, err⟩
    else ⟨st1, .time (ts.getD Time.zero), none⟩

/-- The closure `decodeTime` then `*(**time.Time)(dest) = ts`. -/
def timeIntoPtr (H : Host) : DecodeFn := fun st dest =>
  match decodeTime H st with
  | ((ts, ok, err), st1) =>
    if err ≠ none ∨ !ok then ⟨st1, dest, err⟩
    else ⟨st1, .timePtr ts, none⟩

/-- The closure `decodeBool` then `*(*bool)(dest) = b`. -/
def boolInto : DecodeFn := fun st dest =>
  match decodeBool st.dec with
  | ((b, ok, err), dec1) =>
    if err ≠ none ∨ !ok then ⟨{ st with dec := dec1 }, dest, err⟩
    else ⟨{ st with dec := dec1 }, storeBits 8 (if b then 1 else 0) dest, none⟩

/-- The closure `decodeBool` then `*(*int8)(dest) = v` with `v` 1 or 0. -/
def boolIntoInt8 : DecodeFn := fun st dest =>
  match decodeBool st.dec with
  | ((b, ok, err), dec1) =>
    if err ≠ none ∨ !ok then ⟨{ st with dec := dec1 }, dest, err⟩
    else ⟨{ st with dec := dec1 }, storeBits 8 (if b then 1 else 0) dest, none⟩

/-- The closure `decodeBool` then `*(*interface{})(dest) = b`. -/
def boolIntoInterface : DecodeFn := fun st dest =>
  match decodeBool st.dec with
  | ((b, ok, err), dec1) =>
    if err ≠ none ∨ !ok then ⟨{ st with dec := dec1 }, dest, err⟩
    else ⟨{ st with dec := dec1 }, .iface (some (.bool b)), none⟩

/-- The message of `fmt.Errorf(head + " %v to %s", sourceType,
targetType.String())`. -/
def bindingError (head : String) (sourceType : String) (targetType : RType) : String :=
  head ++ " " ++ sourceType ++ " to " ++ targetType.name

/-- The function `baseUnmarshaler`: the decode function (`none` is `nil`) and
the error. A `switch` case whose body ends without returning (a struct or
pointer target that does not convert to the time type) leaves both switches
and reaches the final `return`. -/
def baseUnmarshaler (H : Host) (sourceType : String) (targetType : RType) :
    Option DecodeFn × Option String :=
  if sourceType ∈ ["BIGNUMERIC", "BIGDECIMAL", "INT64", "INT", "SMALLINT", "INTEGER",
      "BIGINT", "TINYINT", "BYTEINT"] then
    match targetType.kind with
    | .Uint | .Int | .Int64 | .Uint64 => (some (intInto 64), none)
    | .Int32 | .Uint32 => (some (intInto 32), none)
    | .Int16 | .Uint16 => (some (intInto 16), none)
    | .Int8 | .Uint8 => (some (intInto 8), none)
    | .String => (some stringInto, none)
    | .Interface => (some intIntoInterface, none)
    | _ => (none, some (bindingError "unsupported binding type" sourceType targetType))
  else if sourceType = "BYTES" then
    match targetType.kind with
    | .Slice => (some bytesIntoSlice, none)
    | .String => (some stringInto, none)
    | .Interface => (some bytesIntoInterface, none)
    | _ => (none, some (bindingError "unsupported binding type" sourceType targetType))
  else if sourceType = "STRING" then
    match targetType.kind with
    | .String => (some stringInto, none)
    | .Interface => (some stringIntoInterface, none)
    | _ => (none, some (bindingError "unsupported binding type" sourceType targetType))
  else if sourceType ∈ ["NUMERIC", "DECIMAL", "FLOAT64", "FLOAT"] then
    match targetType.kind with
    | .Float32 => (some (floatInto32 H), none)
    | .Float64 => (some (floatInto64 H), none)
    | .String => (some stringInto, none)
    | .Interface => (some (floatIntoInterface H), none)
    | _ => (none, some (bindingError "unsupported binding type" sourceType targetType))
  else if sourceType ∈ ["TIME", "TIMESTAMP", "DATE", "DATETIME"] then
    match targetType.kind with
    | .Uint | .Int | .Int64 | .Uint64 => (some (timeIntoInt64 H), none)
    | .Int32 | .Uint32 => (some (timeIntoInt32 H), none)
    | .String => (some stringInto, none)
    | .Interface => (some (timeIntoInterface H), none)
    | .Struct =>
      if targetType.convertibleToTime then (some (timeIntoStruct H), none)
      else (none, some (bindingError "unsupporter binding type" sourceType targetType))
    | .Ptr =>
      if targetType.convertibleToTimePtr then (some (timeIntoPtr H), none)
      else (none, some (bindingError "unsupporter binding type" sourceType targetType))
    | _ => (none, some (bindingError "unsupporter !! binding type" sourceType targetType))
  else if sourceType = "BOOLEAN" then
    match targetType.kind with
    | .Bool => (some boolInto, none)
    | .Int | .Int8 | .Uint8 | .Uint => (some boolIntoInt8, none)
    | .Interface => (some boolIntoInterface, none)
    | .String => (some stringInto, none)
    | _ => (none, some (bindingError "unsupporter binding type" sourceType targetType))
  else (none, some (bindingError "unsupporter binding type" sourceType targetType))

/-- The decode functions `baseUnmarshaler` can return. -/
def closures (H : Host) : List DecodeFn :=
  [intInto 64, intInto 32, intInto 16, intInto 8, stringInto, intIntoInterface,
   bytesIntoSlice, bytesIntoInterface, stringIntoInterface,
   floatInto32 H, floatInto64 H, floatIntoInterface H,
   timeIntoInt64 H, timeIntoInt32 H, timeIntoInterface H, timeIntoStruct H, timeIntoPtr H,
   boolInto, boolIntoInt8, boolIntoInterface]

/-- The decode functions of `closures` that are not built on `decodeTime`. -/
def plainClosures (H : Host) : List DecodeFn :=
  [intInto 64, intInto 32, intInto 16, intInto 8, stringInto, intIntoInterface,
   bytesIntoSlice, bytesIntoInterface, stringIntoInterface,
   floatInto32 H, floatInto64 H, floatIntoInterface H,
   boolInto, boolIntoInt8, boolIntoInterface]

/-! ## The compatibility matrix of the specification -/

/-- The semantic column types of the specification. -/
inductive SourceType
  | Integer | Bytes | String | FloatingPoint | Temporal | Boolean
  deriving DecidableEq, Repr

/-- The semantic type a source type name stands for, by the aliases the
specification lists; `none` for an unknown name. -/
def sourceTypeOf (sourceType : String) : Option SourceType :=
  if sourceType ∈ ["BIGNUMERIC", "BIGDECIMAL", "INT64", "INT", "SMALLINT", "INTEGER",
      "BIGINT", "TINYINT", "BYTEINT"] then some .Integer
  else if sourceType = "BYTES" then some .Bytes
  else if sourceType = "STRING" then some .String
  else if sourceType ∈ ["NUMERIC", "DECIMAL", "FLOAT64", "FLOAT"] then some .FloatingPoint
  else if sourceType ∈ ["TIME", "TIMESTAMP", "DATE", "DATETIME"] then some .Temporal
  else if sourceType = "BOOLEAN" then some .Boolean
  else none

/-- The pairs of the compatibility matrix: integers of width 8, 16, 32, 64
are the sized kinds, signed and unsigned; dynamic is `Interface`; a struct
destination must convert to `time.Time`, a pointer destination to
`*time.Time`. -/
def inMatrix (src : SourceType) (t : RType) : Bool :=
  match src with
  | .Integer =>
    t.kind ∈ [Kind.Int8, .Int16, .Int32, .Int64, .Uint8, .Uint16, .Uint32, .Uint64,
      .String, .Interface]
  | .Bytes => t.kind ∈ [Kind.String, .Interface]
  | .String => t.kind ∈ [Kind.String, .Interface]
  | .FloatingPoint => t.kind ∈ [Kind.Float32, .Float64, .String, .Interface]
  | .Temporal =>
    t.kind ∈ [Kind.Int64, .Uint64, .Int32, .Uint32, .String, .Interface]
      || (t.kind = .Struct && t.convertibleToTime)
      || (t.kind = .Ptr && t.convertibleToTimePtr)
  | .Boolean => t.kind ∈ [Kind.Bool, .Int8, .Uint8, .String, .Interface]

/-- A source type name and a destination form a pair listed in the matrix. -/
def listed (sourceType : String) (t : RType) : Bool :=
  match sourceTypeOf sourceType with
  | some src => inMatrix src t
  | none => false

/-- The pairs outside the matrix for which `baseUnmarshaler` has a case: the
platform-width kinds `Int` and `Uint` for an Integer, Temporal or Boolean
source, and a slice for a Bytes source. -/
def extraCase (sourceType : String) (t : RType) : Bool :=
  match sourceTypeOf sourceType with
  | some .Integer => t.kind = .Int || t.kind = .Uint
  | some .Temporal => t.kind = .Int || t.kind = .Uint
  | some .Boolean => t.kind = .Int || t.kind = .Uint
  | some .Bytes => t.kind = .Slice
  | _ => false

/-- Resolution succeeded: a decode function and no error. -/
def resolved (r : Option DecodeFn × Option String) : Prop :=
  r.1.isSome = true ∧ r.2 = none

/-- Resolution failed: an error and no decode function. -/
def rejected (r : Option DecodeFn × Option String) : Prop :=
  r.1.isNone = true ∧ r.2.isSome = true

/-! ## A host for concrete runs -/

/-- Number of bits of a natural number, by halving at most `fuel` times. -/
def bitLength : Nat → Nat → Nat
  | 0, _ => 0
  | fuel + 1, n => if n = 0 then 0 else bitLength fuel (n / 2) + 1

/-- The binary64 pattern of a natural number below `2 ^ 53`, which binary64
represents exactly. -/
def float64OfNat (m : Nat) : Float64 :=
  if m = 0 then ⟨0⟩
  else ⟨(1022 + bitLength 64 m) * 2 ^ 52 + (m * 2 ^ (53 - bitLength 64 m) - 2 ^ 52)⟩

/-- The natural number a binary64 pattern denotes, when it denotes one:
positive sign, exponent between 0 and 52 over the bias. -/
def natOfFloat64 (f : Float64) : Option Nat :=
  if f.bits = 0 then some 0
  else if 1023 ≤ f.bits / 2 ^ 52 ∧ f.bits / 2 ^ 52 ≤ 1075
      ∧ (2 ^ 52 + f.bits % 2 ^ 52) % 2 ^ (1075 - f.bits / 2 ^ 52) = 0 then
    some ((2 ^ 52 + f.bits % 2 ^ 52) / 2 ^ (1075 - f.bits / 2 ^ 52))
  else none

/-- Days from 1970-01-01 to a date of the proleptic Gregorian calendar. -/
def daysFromCivil (y m d : Nat) : Int :=
  let y1 : Nat := if m ≤ 2 then y - 1 else y
  let yoe : Nat := y1 % 400
  let mp : Nat := if 2 < m then m - 3 else m + 9
  let doy : Nat := (153 * mp + 2) / 5 + (d - 1)
  ((y1 / 400 * 146097 + (yoe * 365 + yoe / 4 - yoe / 100 + doy) : Nat) : Int) - 719468

/-- Number of days of a month. -/
def daysIn (y m : Nat) : Nat :=
  if m = 2 then (if y % 4 = 0 ∧ (y % 100 ≠ 0 ∨ y % 400 = 0) then 29 else 28)
  else if m = 4 ∨ m = 6 ∨ m = 9 ∨ m = 11 then 30 else 31

/-- The layout `2006-01-02` applied to a text: four, two and two digits
separated by hyphens, a month from 1 to 12 and a day of that month from the
year 1 on, at midnight UTC. -/
def parseDate (cs : List Char) : Option Time :=
  match cs with
  | [y1, y2, y3, y4, s1, m1, m2, s2, d1, d2] =>
    match parseDigits [y1, y2, y3, y4] 0, parseDigits [m1, m2] 0, parseDigits [d1, d2] 0 with
    | some y, some m, some d =>
      if s1 = '-' ∧ s2 = '-' ∧ 1 ≤ y ∧ 1 ≤ m ∧ m ≤ 12 ∧ 1 ≤ d ∧ d ≤ daysIn y m then
        some ⟨daysFromCivil y m d * 86400000000000⟩
      else none
    | _, _, _ => none
  | _ => none

/-- A small host on which the definitions can be run. It agrees with the Go
runtime on the texts it accepts: its float parser reads the unsigned decimal
integers below `2 ^ 53` (all else is an error for it), its time parser knows
the layout `2006-01-02` (all other layouts fail), the product by a million is
taken for floats that are small natural numbers, and the conversion to
`float32` is taken for the floats below `2 ^ 24` among them. It is a witness
for the theorems below, which hold for every host. -/
def sampleHost : Host where
  parseFloat := fun s =>
    match parseDigits s.data 0 with
    | some m => if s ≠ "" ∧ m < 2 ^ 53 then (float64OfNat m, none)
                else (⟨0⟩, some "invalid syntax")
    | none => (⟨0⟩, some "invalid syntax")
  toFloat32 := fun f =>
    match natOfFloat64 f with
    | some m =>
      if m = 0 ∨ 2 ^ 24 ≤ m then ⟨0⟩
      else ⟨(126 + bitLength 64 m) * 2 ^ 23 + (m * 2 ^ (24 - bitLength 64 m) - 2 ^ 23)⟩
    | none => ⟨0⟩
  micros := fun f =>
    match natOfFloat64 f with
    | some m => if m * 1000000 < 2 ^ 53 then (m * 1000000 : Nat) else 0
    | none => 0
  timeParse := fun layout value =>
    if layout = "2006-01-02" then
      match parseDate value.data with
      | some t => (t, none)
      | none => (Time.zero, some "parsing time: cannot parse value")
    else (Time.zero, some "parsing time: cannot parse value")

/-! ## The temporal parser of the specification -/

/-- A layout parses a text: `time.Parse(layout, s)` returns no error. -/
def parses (H : Host) (s layout : String) : Bool :=
  decide ((H.timeParse layout s).2 = none)

/-- The reference algorithm of the specification for `parseTime`, with
single-layout parsing a function of the layout and the text: the cached
layout first, when there is one; then the first layout of `dateLayouts`, in
list order, that parses the text, which becomes the cache; when none does,
the zero time with the error of the last layout tried, the cache as it
was. -/
def parseTimeRef (H : Host) (cache s : String) : (Time × Option String) × String :=
  if cache ≠ "" ∧ parses H s cache = true then (((H.timeParse cache s).1, none), cache)
  else
    match dateLayouts.find? (parses H s) with
    | some layout => (((H.timeParse layout s).1, none), layout)
    | none => ((Time.zero, (H.timeParse "2006/01/02 15:04:05" s).2), cache)

/-- A sequence of calls of `parseTime`, each starting from the cache the call
before it left: the results in order and the cache at the end. -/
def parseTimeSeq (H : Host) : String → List String → List (Time × Option String) × String
  | cache, [] => ([], cache)
  | cache, s :: ss =>
    ((parseTime H cache s).1 :: (parseTimeSeq H (parseTime H cache s).2 ss).1,
      (parseTimeSeq H (parseTime H cache s).2 ss).2)

/-- The layout `01/02/2006` applied to a text: month, day and year in two,
two and four digits separated by slashes, at midnight UTC. -/
def parseDateUS (cs : List Char) : Option Time :=
  match cs with
  | [m1, m2, s1, d1, d2, s2, y1, y2, y3, y4] =>
    match parseDigits [y1, y2, y3, y4] 0, parseDigits [m1, m2] 0, parseDigits [d1, d2] 0 with
    | some y, some m, some d =>
      if s1 = '/' ∧ s2 = '/' ∧ 1 ≤ y ∧ 1 ≤ m ∧ m ≤ 12 ∧ 1 ≤ d ∧ d ≤ daysIn y m then
        some ⟨daysFromCivil y m d * 86400000000000⟩
      else none
    | _, _, _ => none
  | _ => none

/-- The host `sampleHost` with a time parser that knows two layouts of the
list, `2006-01-02` and `01/02/2006`, and fails on every other layout. -/
def calendarHost : Host where
  parseFloat := sampleHost.parseFloat
  toFloat32 := sampleHost.toFloat32
  micros := sampleHost.micros
  timeParse := fun layout value =>
    if layout = "2006-01-02" then
      match parseDate value.data with
      | some t => (t, none)
      | none => (Time.zero, some "parsing time: cannot parse value")
    else if layout = "01/02/2006" then
      match parseDateUS value.data with
      | some t => (t, none)
      | none => (Time.zero, some "parsing time: cannot parse value")
    else (Time.zero, some "parsing time: cannot parse value")

/-! # Theorems -/

/-! ## Binding resolution -/

/-- C1. Every pair listed in the compatibility matrix resolves: for each
source type name that is an alias of a semantic type and each destination that
the matrix pairs with it, `baseUnmarshaler` returns a decode function and no
error. -/
theorem baseUnmarshaler_resolves_matrix (H : Host) (sourceType : String) (t : RType)
    (h : listed sourceType t = true) : resolved (baseUnmarshaler H sourceType t) := by
  obtain ⟨k, n, c1, c2⟩ := t
  simp only [listed, sourceTypeOf] at h
  simp only [baseUnmarshaler, resolved]
  split_ifs at h ⊢ <;> cases k <;> simp_all [inMatrix]

/-- Witness of C1: a TIMESTAMP column bound to a struct that converts to the
time type. -/
theorem baseUnmarshaler_resolves_matrix_witness :
    listed "TIMESTAMP" { kind := .Struct, name := "time.Time", convertibleToTime := true } = true
    ∧ resolved (baseUnmarshaler sampleHost "TIMESTAMP"
        { kind := .Struct, name := "time.Time", convertibleToTime := true }) :=
  ⟨by decide, baseUnmarshaler_resolves_matrix sampleHost "TIMESTAMP" _ (by decide)⟩

/-- C2, as stated, fails: a BYTES column bound to a slice is not a pair of the
matrix, and a BOOLEAN column bound to a platform-width `int` is not either,
yet `baseUnmarshaler` returns a decode function and no error for both. -/
theorem unlisted_pair_resolves :
    (listed "BYTES" { kind := .Slice, name := "[]uint8" } = false
      ∧ resolved (baseUnmarshaler sampleHost "BYTES" { kind := .Slice, name := "[]uint8" }))
    ∧ (listed "BOOLEAN" { kind := .Int, name := "int" } = false
      ∧ resolved (baseUnmarshaler sampleHost "BOOLEAN" { kind := .Int, name := "int" })) := by
  refine ⟨⟨by decide, ?_, ?_⟩, ⟨by decide, ?_, ?_⟩⟩ <;> simp [baseUnmarshaler]

/-- C2, amended. Outside the matrix and the four extra cases of the code
(platform-width `int` and `uint` for an Integer, Temporal or Boolean source, a
slice for a Bytes source) `baseUnmarshaler` returns an error and no decode
function, whatever the source type name, known or not; on the extra cases it
returns a decode function and no error. -/
theorem baseUnmarshaler_rejects_unsupported (H : Host) (sourceType : String) (t : RType) :
    (listed sourceType t = false → extraCase sourceType t = false →
      rejected (baseUnmarshaler H sourceType t))
    ∧ (extraCase sourceType t = true → resolved (baseUnmarshaler H sourceType t)) := by
  obtain ⟨k, n, c1, c2⟩ := t
  simp only [listed, extraCase, sourceTypeOf, baseUnmarshaler, resolved, rejected]
  constructor
  · split_ifs <;> cases k <;> simp [inMatrix, *]
  · split_ifs <;> cases k <;> simp [*]

/-- Witness of the amended C2: an unknown source type name, a Temporal
source with a struct that does not convert to the time type, and the extra
case of a DATE column bound to `uint`. -/
theorem baseUnmarshaler_rejects_unsupported_witness :
    rejected (baseUnmarshaler sampleHost "GEOGRAPHY" { kind := .String, name := "string" })
    ∧ rejected (baseUnmarshaler sampleHost "TIMESTAMP" { kind := .Struct, name := "main.Row" })
    ∧ resolved (baseUnmarshaler sampleHost "DATE" { kind := .Uint, name := "uint" }) :=
  ⟨(baseUnmarshaler_rejects_unsupported sampleHost "GEOGRAPHY" _).1 (by decide) (by decide),
   (baseUnmarshaler_rejects_unsupported sampleHost "TIMESTAMP" _).1 (by decide) (by decide),
   (baseUnmarshaler_rejects_unsupported sampleHost "DATE" _).2 (by decide)⟩


/-! ## Null tokens and errors -/

/-- Every decode function `baseUnmarshaler` returns is one of `closures`. -/
theorem resolved_mem_closures (H : Host) (sourceType : String) (t : RType) (fn : DecodeFn)
    (h : (baseUnmarshaler H sourceType t).1 = some fn) : fn ∈ closures H := by
  obtain ⟨k, n, c1, c2⟩ := t
  simp only [baseUnmarshaler] at h
  split_ifs at h <;> cases k <;> simp at h <;> (subst h; simp [closures])

/-- A decode function that returns an error has not written. -/
theorem error_keeps_dest_of_mem (H : Host) (fn : DecodeFn) (hfn : fn ∈ closures H)
    (st : State) (dest : Slot) (herr : (fn st dest).err ≠ none) : (fn st dest).dest = dest := by
  simp only [closures, List.mem_cons, List.mem_singleton, List.not_mem_nil, or_false] at hfn
  rcases hfn with h | h | h | h | h | h | h | h | h | h | h | h | h | h | h | h | h | h | h | h <;>
    subst h <;> revert herr
  all_goals
    simp only [intInto, stringInto, intIntoInterface, bytesIntoSlice, bytesIntoInterface,
      stringIntoInterface, floatInto32, floatInto64, floatIntoInterface, timeIntoInt64,
      timeIntoInt32, timeIntoInterface, timeIntoStruct, timeIntoPtr, boolInto, boolIntoInt8,
      boolIntoInterface]
    split_ifs <;> simp

/-- The readers built on `StringNull` alone treat a null token as absent:
for every pair that resolves to a decode function not built on `decodeTime`
(every supported pair whose source is not Temporal, and Temporal with a string
destination), a run on a null token returns no error, leaves the destination
as it was and consumes the null only. -/
theorem null_keeps_dest_without_decodeTime (H : Host) (sourceType : String) (t : RType)
    (fn : DecodeFn) (rest : List Token) (e : Option String) (cache : String) (dest : Slot)
    (h : (baseUnmarshaler H sourceType t).1 = some fn)
    (hsrc : sourceTypeOf sourceType ≠ some .Temporal ∨ t.kind = .String) :
    fn ⟨⟨.null :: rest, e⟩, cache⟩ dest = ⟨⟨⟨rest, e⟩, cache⟩, dest, none⟩ := by
  obtain ⟨k, n, c1, c2⟩ := t
  simp only [baseUnmarshaler] at h
  simp only [sourceTypeOf] at hsrc
  split_ifs at h hsrc <;> cases k <;> simp at h hsrc <;> subst h <;>
    simp [intInto, stringInto, intIntoInterface, bytesIntoSlice, bytesIntoInterface,
      stringIntoInterface, floatInto32, floatInto64, floatIntoInterface, boolInto, boolIntoInt8,
      boolIntoInterface, decodeInt, decodeString, decodeFloat, decodeBool, StringNull]

/-- C3 fails on the code for the decode functions built on `decodeTime`. For
a TIMESTAMP column bound to an `int64` field, a run on a null token followed
by a string token consumes both tokens and returns the verdict of
`strconv.ParseFloat` on the string: the null is swallowed by `Float64Null`,
whose success sends `decodeTime` to `decodeFloat` for a second read. On the
tokens `null`, `"b"` the run ends in an error. -/
theorem null_token_reads_next_token :
    (∀ (H : Host) (s : String) (rest : List Token) (e : Option String) (cache : String)
        (dest : Slot),
      (baseUnmarshaler H "TIMESTAMP" { kind := .Int64, name := "int64" }).1.map
          (fun fn => ((fn ⟨⟨.null :: .str s :: rest, e⟩, cache⟩ dest).err,
                      (fn ⟨⟨.null :: .str s :: rest, e⟩, cache⟩ dest).st.dec.input))
        = some ((H.parseFloat s).2, rest))
    ∧ (baseUnmarshaler sampleHost "TIMESTAMP" { kind := .Int64, name := "int64" }).1.map
          (fun fn => (fn ⟨⟨[.null, .str "b"], none⟩, ""⟩ (.raw 0)).err)
        = some (some "invalid syntax") := by
  constructor
  · intro H s rest e cache dest
    simp only [baseUnmarshaler]
    simp [timeIntoInt64, decodeTime, Float64Null, decodeFloat, StringNull]
    split_ifs <;> simp_all
  · decide

/-- C4. A decode function resolved by `baseUnmarshaler` that returns an error
leaves the destination as it was, for every source type name, destination,
decoder state and destination content: every write comes after the token has
been read and parsed. -/
theorem decode_error_keeps_dest (H : Host) (sourceType : String) (t : RType) (fn : DecodeFn)
    (st : State) (dest : Slot)
    (h : (baseUnmarshaler H sourceType t).1 = some fn)
    (herr : (fn st dest).err ≠ none) : (fn st dest).dest = dest :=
  error_keeps_dest_of_mem H fn (resolved_mem_closures H sourceType t fn h) st dest herr

/-- Witness of C4: an INT64 column bound to an `int8` field, on the token
`"12x"`, which `strconv.Atoi` rejects. -/
theorem decode_error_keeps_dest_witness :
    (baseUnmarshaler sampleHost "INT64" { kind := .Int8, name := "int8" }).1 = some (intInto 8)
    ∧ (intInto 8 ⟨⟨[.str "12x"], none⟩, ""⟩ (.raw 7)).err ≠ none
    ∧ (intInto 8 ⟨⟨[.str "12x"], none⟩, ""⟩ (.raw 7)).dest = .raw 7 :=
  ⟨by simp [baseUnmarshaler], by decide,
   decode_error_keeps_dest sampleHost "INT64" { kind := .Int8, name := "int8" } (intInto 8)
     ⟨⟨[.str "12x"], none⟩, ""⟩ (.raw 7) (by simp [baseUnmarshaler]) (by decide)⟩


/-! ## Integers -/

theorem wrapU_lt (w : Nat) (v : Int) : wrapU w v < 2 ^ w := by
  unfold wrapU
  have h : (0 : Int) < (2 : Int) ^ w := by positivity
  have h1 := Int.emod_lt_of_pos v h
  have h2 := Int.emod_nonneg v (ne_of_gt h)
  zify
  rw [Int.toNat_of_nonneg h2]
  exact_mod_cast h1

/-- A load of `w` bits after a store of `w` bits reads the stored pattern. -/
theorem loadUnsigned_storeBits (w : Nat) (v : Int) (dest : Slot) :
    loadUnsigned w (storeBits w v dest) = wrapU w v := by
  cases dest <;> simp only [storeBits, loadUnsigned]
  · rw [Nat.add_comm, Nat.add_mul_mod_self_right, Nat.mod_eq_of_lt (wrapU_lt w v)]
  all_goals exact Nat.mod_eq_of_lt (wrapU_lt w v)

theorem wrapU_natCast (w : Nat) (u : Nat) (h : u < 2 ^ w) : wrapU w (u : Int) = u := by
  unfold wrapU
  have : ((u : Int) % (2 : Int) ^ w) = u := by
    apply Int.emod_eq_of_lt (by positivity)
    exact_mod_cast h
  rw [this]; simp

theorem wrapU_wrapS (w : Nat) (v : Int) : wrapU w (wrapS w v) = wrapU w v := by
  unfold wrapS
  split_ifs
  · exact wrapU_natCast w _ (wrapU_lt w v)
  · have : wrapU w ((wrapU w v : Int) - (2 : Int) ^ w) = wrapU w (wrapU w v : Int) := by
      unfold wrapU
      rw [Int.sub_emod, Int.emod_self, sub_zero, Int.emod_emod_of_dvd _ (dvd_refl _)]
    rw [this]
    exact wrapU_natCast w _ (wrapU_lt w v)

/-- Reading back as a signed integer what was stored as one. -/
theorem loadSigned_storeBits (w : Nat) (v : Int) (dest : Slot) :
    loadSigned w (storeBits w (wrapS w v) dest) = wrapS w v := by
  unfold loadSigned
  rw [loadUnsigned_storeBits, wrapU_wrapS]
  conv_rhs => unfold wrapS
  unfold wrapS
  rw [wrapU_natCast w _ (wrapU_lt w v)]

/-- The two's-complement reading: `wrapS w v` is congruent to `v` modulo
`2 ^ w` and lies in the signed `w`-bit range. -/
theorem wrapS_spec (w : Nat) (hw : 0 < w) (v : Int) :
    (wrapS w v - v) % (2 : Int) ^ w = 0
    ∧ -(2 : Int) ^ (w - 1) ≤ wrapS w v ∧ wrapS w v < (2 : Int) ^ (w - 1) := by
  have hpos : (0 : Int) < (2 : Int) ^ w := by positivity
  have h1 := Int.emod_lt_of_pos v hpos
  have h2 := Int.emod_nonneg v (ne_of_gt hpos)
  have hu : (wrapU w v : Int) = v % (2 : Int) ^ w := by
    unfold wrapU; rw [Int.toNat_of_nonneg h2]
  have hpow : (2 : Int) ^ w = 2 * (2 : Int) ^ (w - 1) := by
    obtain ⟨k, rfl⟩ : ∃ k, w = k + 1 := ⟨w - 1, by omega⟩
    simp [pow_succ]; ring
  have hdiv : (v % (2 : Int) ^ w - v) % (2 : Int) ^ w = 0 := by
    rw [Int.sub_emod, Int.emod_emod_of_dvd _ (dvd_refl _), sub_self, Int.zero_emod]
  unfold wrapS
  split_ifs with hlt
  · have hlt' : (wrapU w v : Int) < (2 : Int) ^ (w - 1) := by exact_mod_cast hlt
    rw [hu] at hlt' ⊢
    refine ⟨hdiv, ?_, hlt'⟩
    have : (0 : Int) < (2 : Int) ^ (w - 1) := by positivity
    omega
  · have hge : (2 : Int) ^ (w - 1) ≤ (wrapU w v : Int) := by
      have := Nat.le_of_not_lt hlt
      exact_mod_cast this
    rw [hu] at hge ⊢
    refine ⟨?_, by omega, by omega⟩
    have : v % (2 : Int) ^ w - (2 : Int) ^ w - v = (v % (2 : Int) ^ w - v) - (2 : Int) ^ w := by ring
    rw [this, Int.sub_emod, hdiv, Int.emod_self]; simp

/-- A value of the signed `w`-bit range is its own reduction. -/
theorem wrapS_of_range (w : Nat) (hw : 0 < w) (v : Int)
    (h1 : -(2 : Int) ^ (w - 1) ≤ v) (h2 : v < (2 : Int) ^ (w - 1)) : wrapS w v = v := by
  obtain ⟨hm, hlo, hhi⟩ := wrapS_spec w hw v
  have hpow : (2 : Int) ^ w = 2 * (2 : Int) ^ (w - 1) := by
    obtain ⟨k, rfl⟩ : ∃ k, w = k + 1 := ⟨w - 1, by omega⟩
    simp [pow_succ]; ring
  have hd : (2 : Int) ^ w ∣ wrapS w v - v := Int.dvd_of_emod_eq_zero hm
  obtain ⟨k, hk⟩ := hd
  have hpos : (0 : Int) < (2 : Int) ^ (w - 1) := by positivity
  have : k = 0 := by
    by_contra hne
    rcases lt_or_gt_of_ne hne with hneg | hpos'
    · have : (2 : Int) ^ w * k ≤ -(2 : Int) ^ w := by nlinarith
      omega
    · have : (2 : Int) ^ w ≤ (2 : Int) ^ w * k := by nlinarith
      omega
  rw [this] at hk
  linarith

theorem digitVal_ofNat (d : Nat) (h : d < 10) : digitVal (Char.ofNat (48 + d)) = some d := by
  interval_cases d <;> decide

theorem parseDigits_append (xs ys : List Char) (acc : Nat) :
    parseDigits (xs ++ ys) acc = (parseDigits xs acc).bind (parseDigits ys) := by
  induction xs generalizing acc with
  | nil => simp [parseDigits]
  | cons c cs ih =>
    simp only [List.cons_append, parseDigits]
    cases digitVal c with
    | none => simp
    | some d => simp [ih]

/-- Reading back the digits of a number written most significant first. -/
theorem parseDigits_digits (l : List Nat) (hl : ∀ d ∈ l, d < 10) (acc : Nat) :
    parseDigits (l.reverse.map (fun d => Char.ofNat (48 + d))) acc
      = some (acc * 10 ^ l.length + Nat.ofDigits 10 l) := by
  induction l generalizing acc with
  | nil => simp [parseDigits]
  | cons d l ih =>
    have hd : d < 10 := hl d (List.mem_cons_self _ _)
    have hl' : ∀ x ∈ l, x < 10 := fun x hx => hl x (List.mem_cons_of_mem _ hx)
    simp only [List.reverse_cons, List.map_append, List.map_cons, List.map_nil,
      parseDigits_append, ih hl', Option.some_bind, parseDigits, digitVal_ofNat d hd,
      List.length_cons, Nat.ofDigits_cons]
    congr 1
    ring

theorem parseDigits_formatNat (m : Nat) :
    parseDigits ((Nat.digits 10 m).reverse.map (fun d => Char.ofNat (48 + d))) 0 = some m := by
  rw [parseDigits_digits _ (fun d hd => Nat.digits_lt_base (by norm_num) hd)]
  simp [Nat.ofDigits_digits]

/-- The function `strconv.Atoi` reads back what `strconv.Itoa` writes. -/
theorem parseSigned_Itoa (n : Int) : parseSigned (Itoa n) = some n := by
  unfold Itoa
  split_ifs with hneg hzero
  · have hne : (Nat.digits 10 n.natAbs).reverse.map (fun d => Char.ofNat (48 + d)) ≠ [] := by
      have : n.natAbs ≠ 0 := by omega
      simp [Nat.digits_ne_nil_iff_ne_zero, this]
    simp only [parseSigned, if_true, hne, if_false, parseDigits_formatNat, Option.map_some',
      Option.some.injEq]
    omega
  · subst hzero; decide
  · have hpos : n.natAbs ≠ 0 := by omega
    have hne : Nat.digits 10 n.natAbs ≠ [] := by
      simp [Nat.digits_ne_nil_iff_ne_zero, hpos]
    have key := parseDigits_formatNat n.natAbs
    obtain ⟨d, l, hdl⟩ : ∃ d l, (Nat.digits 10 n.natAbs).reverse = d :: l := by
      cases h : (Nat.digits 10 n.natAbs).reverse with
      | nil => simp at h; exact absurd h hne
      | cons d l => exact ⟨d, l, rfl⟩
    have hd : d < 10 := by
      have : d ∈ Nat.digits 10 n.natAbs := by
        rw [← List.mem_reverse, hdl]; exact List.mem_cons_self _ _
      exact Nat.digits_lt_base (by norm_num) this
    rw [hdl] at key ⊢
    simp only [List.map_cons] at key ⊢
    have h1 : Char.ofNat (48 + d) ≠ '-' := by interval_cases d <;> decide
    have h2 : Char.ofNat (48 + d) ≠ '+' := by interval_cases d <;> decide
    simp only [parseSigned, h1, h2, if_false, key, Option.map_some', Option.some.injEq]
    omega

theorem Atoi_of_parseSigned (s : String) (n : Int) (hs : parseSigned s.data = some n)
    (h1 : -(2 : Int) ^ 63 ≤ n) (h2 : n < (2 : Int) ^ 63) : Atoi s = (n, none) := by
  unfold Atoi
  rw [hs]
  simp only
  rw [if_neg (by omega), if_neg (by omega)]

theorem decodeInt_present (s : String) (n : Int) (rest : List Token) (e : Option String)
    (hs : parseSigned s.data = some n)
    (h1 : -(2 : Int) ^ 63 ≤ n) (h2 : n < (2 : Int) ^ 63) :
    decodeInt ⟨.str s :: rest, e⟩ = ((n, true, none), ⟨rest, e⟩) := by
  simp [decodeInt, StringNull, Atoi_of_parseSigned s n hs h1 h2]

theorem integer_alias (sourceType : String) (h : sourceTypeOf sourceType = some .Integer) :
    sourceType ∈ ["BIGNUMERIC", "BIGDECIMAL", "INT64", "INT", "SMALLINT", "INTEGER",
      "BIGINT", "TINYINT", "BYTEINT"] := by
  simp only [sourceTypeOf] at h
  split_ifs at h <;> first | assumption | simp at h

theorem intInto_present (w : Nat) (s : String) (n : Int) (rest : List Token)
    (e : Option String) (cache : String) (dest : Slot)
    (hs : parseSigned s.data = some n)
    (h1 : -(2 : Int) ^ 63 ≤ n) (h2 : n < (2 : Int) ^ 63) :
    intInto w ⟨⟨.str s :: rest, e⟩, cache⟩ dest
      = ⟨⟨⟨rest, e⟩, cache⟩, storeBits w (wrapS w n) dest, none⟩ := by
  simp [intInto, decodeInt_present s n rest e hs h1 h2]

/-- C5. For an Integer source and a signed destination of width 8, 16 or 32,
a present token whose text denotes an integer `n` of the signed 64-bit range
decodes without error, consumes that token, and the destination then reads,
as a signed integer of that width, the value congruent to `n` modulo `2 ^ w`
in the two's-complement range: there is no range check. -/
theorem integer_narrowing_truncates (H : Host) (sourceType : String) (t : RType) (w : Nat)
    (s : String) (n : Int) (rest : List Token) (e : Option String) (cache : String)
    (dest : Slot)
    (hsrc : sourceTypeOf sourceType = some .Integer)
    (hk : (t.kind = .Int8 ∧ w = 8) ∨ (t.kind = .Int16 ∧ w = 16) ∨ (t.kind = .Int32 ∧ w = 32))
    (hs : parseSigned s.data = some n)
    (h1 : -(2 : Int) ^ 63 ≤ n) (h2 : n < (2 : Int) ^ 63) :
    ∃ fn, (baseUnmarshaler H sourceType t).1 = some fn
      ∧ (fn ⟨⟨.str s :: rest, e⟩, cache⟩ dest).err = none
      ∧ (fn ⟨⟨.str s :: rest, e⟩, cache⟩ dest).st = ⟨⟨rest, e⟩, cache⟩
      ∧ (loadSigned w (fn ⟨⟨.str s :: rest, e⟩, cache⟩ dest).dest - n) % (2 : Int) ^ w = 0
      ∧ -(2 : Int) ^ (w - 1) ≤ loadSigned w (fn ⟨⟨.str s :: rest, e⟩, cache⟩ dest).dest
      ∧ loadSigned w (fn ⟨⟨.str s :: rest, e⟩, cache⟩ dest).dest < (2 : Int) ^ (w - 1) := by
  have hmem := integer_alias sourceType hsrc
  obtain ⟨k, nm, c1, c2⟩ := t
  have hw : 0 < w := by rcases hk with ⟨_, h⟩ | ⟨_, h⟩ | ⟨_, h⟩ <;> omega
  refine ⟨intInto w, ?_, ?_⟩
  · simp only [baseUnmarshaler, if_pos hmem]
    rcases hk with ⟨hk, h⟩ | ⟨hk, h⟩ | ⟨hk, h⟩ <;> simp only at hk <;> subst hk <;> subst h <;> rfl
  · rw [intInto_present w s n rest e cache dest hs h1 h2]
    refine ⟨rfl, rfl, ?_⟩
    rw [loadSigned_storeBits]
    exact wrapS_spec w hw n

/-- Witness of C5: the text `9223372036854775807` into an `int8` field of an
INT64 column; the field then reads -1. -/
theorem integer_narrowing_truncates_witness :
    (parseSigned "9223372036854775807".data = some 9223372036854775807
      ∧ loadSigned 8 (intInto 8 ⟨⟨[.str "9223372036854775807"], none⟩, ""⟩ (.raw 0)).dest = -1)
    ∧ ∃ fn, (baseUnmarshaler sampleHost "INT64" { kind := .Int8, name := "int8" }).1 = some fn
      ∧ (fn ⟨⟨.str "9223372036854775807" :: [], none⟩, ""⟩ (.raw 0)).err = none
      ∧ (fn ⟨⟨.str "9223372036854775807" :: [], none⟩, ""⟩ (.raw 0)).st = ⟨⟨[], none⟩, ""⟩
      ∧ (loadSigned 8 (fn ⟨⟨.str "9223372036854775807" :: [], none⟩, ""⟩ (.raw 0)).dest
          - 9223372036854775807) % (2 : Int) ^ 8 = 0
      ∧ -(2 : Int) ^ (8 - 1)
          ≤ loadSigned 8 (fn ⟨⟨.str "9223372036854775807" :: [], none⟩, ""⟩ (.raw 0)).dest
      ∧ loadSigned 8 (fn ⟨⟨.str "9223372036854775807" :: [], none⟩, ""⟩ (.raw 0)).dest
          < (2 : Int) ^ (8 - 1) :=
  ⟨⟨by decide, by decide⟩,
   integer_narrowing_truncates sampleHost "INT64" { kind := .Int8, name := "int8" } 8
     "9223372036854775807" 9223372036854775807 [] none "" (.raw 0) (by decide)
     (Or.inl ⟨rfl, rfl⟩) (by decide) (by decide) (by decide)⟩

/-- C6. For an Integer source and an `int64` destination, the token holding
the canonical base-10 text of an integer `n` of the signed 64-bit range
decodes without error and the destination then reads exactly `n`, so that
formatting what was stored gives the text of the token back. -/
theorem integer_int64_roundtrip (H : Host) (sourceType : String) (t : RType) (n : Int)
    (rest : List Token) (e : Option String) (cache : String) (dest : Slot)
    (hsrc : sourceTypeOf sourceType = some .Integer) (hk : t.kind = .Int64)
    (h1 : -(2 : Int) ^ 63 ≤ n) (h2 : n < (2 : Int) ^ 63) :
    ∃ fn, (baseUnmarshaler H sourceType t).1 = some fn
      ∧ (fn ⟨⟨.str ⟨Itoa n⟩ :: rest, e⟩, cache⟩ dest).err = none
      ∧ loadSigned 64 (fn ⟨⟨.str ⟨Itoa n⟩ :: rest, e⟩, cache⟩ dest).dest = n
      ∧ (⟨Itoa (loadSigned 64 (fn ⟨⟨.str ⟨Itoa n⟩ :: rest, e⟩, cache⟩ dest).dest)⟩ : String)
          = ⟨Itoa n⟩ := by
  have hmem := integer_alias sourceType hsrc
  obtain ⟨k, nm, c1, c2⟩ := t
  simp only at hk
  subst hk
  refine ⟨intInto 64, ?_, ?_⟩
  · simp only [baseUnmarshaler, if_pos hmem]
  · rw [intInto_present 64 ⟨Itoa n⟩ n rest e cache dest (parseSigned_Itoa n) h1 h2]
    have hback : loadSigned 64 (storeBits 64 (wrapS 64 n) dest) = n := by
      rw [loadSigned_storeBits]
      exact wrapS_of_range 64 (by norm_num) n (by norm_num; omega) (by norm_num; omega)
    refine ⟨rfl, hback, ?_⟩
    show (⟨Itoa (loadSigned 64 (storeBits 64 (wrapS 64 n) dest))⟩ : String) = ⟨Itoa n⟩
    rw [hback]

/-- Witness of C6: the largest signed 64-bit value, whose canonical text is
`9223372036854775807`. -/
theorem integer_int64_roundtrip_witness :
    ((⟨Itoa 9223372036854775807⟩ : String) = "9223372036854775807"
      ∧ -(2 : Int) ^ 63 ≤ 9223372036854775807 ∧ (9223372036854775807 : Int) < (2 : Int) ^ 63)
    ∧ ∃ fn, (baseUnmarshaler sampleHost "INT64" { kind := .Int64, name := "int64" }).1 = some fn
      ∧ (fn ⟨⟨.str ⟨Itoa 9223372036854775807⟩ :: [], none⟩, ""⟩ (.raw 0)).err = none
      ∧ loadSigned 64
          (fn ⟨⟨.str ⟨Itoa 9223372036854775807⟩ :: [], none⟩, ""⟩ (.raw 0)).dest
          = 9223372036854775807
      ∧ (⟨Itoa (loadSigned 64
            (fn ⟨⟨.str ⟨Itoa 9223372036854775807⟩ :: [], none⟩, ""⟩ (.raw 0)).dest)⟩ : String)
          = ⟨Itoa 9223372036854775807⟩ :=
  ⟨⟨by norm_num [Itoa], by decide, by decide⟩,
   integer_int64_roundtrip sampleHost "INT64" { kind := .Int64, name := "int64" }
     9223372036854775807 [] none "" (.raw 0) (by decide) rfl (by decide) (by decide)⟩


/-! ## Strings and bytes -/

/-- C7. For every source type name that is an alias of one of the six
semantic types and every string destination, a present string token `s`
decodes without error, the destination then holds exactly `s`, and only that
token is consumed: the text is not parsed, validated or re-encoded. -/
theorem string_destination_stores_text (H : Host) (sourceType : String) (t : RType)
    (s : String) (rest : List Token) (e : Option String) (cache : String) (dest : Slot)
    (hsrc : sourceTypeOf sourceType ≠ none) (hk : t.kind = .String) :
    ∃ fn, (baseUnmarshaler H sourceType t).1 = some fn
      ∧ fn ⟨⟨.str s :: rest, e⟩, cache⟩ dest = ⟨⟨⟨rest, e⟩, cache⟩, .str s, none⟩ := by
  obtain ⟨k, nm, c1, c2⟩ := t
  simp only at hk
  subst hk
  refine ⟨stringInto, ?_, ?_⟩
  · simp only [sourceTypeOf] at hsrc
    simp only [baseUnmarshaler]
    split_ifs at hsrc ⊢ <;> first | rfl | simp at hsrc
  · simp [stringInto, decodeString, StringNull]

/-- Witness of C7: a BOOLEAN column bound to a string field, on the token
`"true"`; the field holds the text `true`. -/
theorem string_destination_stores_text_witness :
    sourceTypeOf "BOOLEAN" ≠ none
    ∧ ∃ fn, (baseUnmarshaler sampleHost "BOOLEAN" { kind := .String, name := "string" }).1
          = some fn
      ∧ fn ⟨⟨.str "true" :: [], none⟩, ""⟩ (.str "") = ⟨⟨⟨[], none⟩, ""⟩, .str "true", none⟩ :=
  ⟨by decide,
   string_destination_stores_text sampleHost "BOOLEAN" { kind := .String, name := "string" }
     "true" [] none "" (.str "") (by decide) rfl⟩

theorem b64Char_facts : ∀ i : Fin 64,
    b64Index (b64Char i.val) = some i.val ∧ b64Char i.val ≠ '='
      ∧ b64Char i.val ≠ '\n' ∧ b64Char i.val ≠ '\r' := by
  decide

theorem b64Index_b64Char (i : Nat) (h : i < 64) : b64Index (b64Char i) = some i :=
  (b64Char_facts ⟨i, h⟩).1

theorem b64Char_ne_pad (i : Nat) (h : i < 64) : b64Char i ≠ '=' :=
  (b64Char_facts ⟨i, h⟩).2.1

theorem b64Char_keep (i : Nat) (h : i < 64) :
    (!(b64Char i = '\n' || b64Char i = '\r')) = true := by
  have := (b64Char_facts ⟨i, h⟩).2.2
  simp [this.1, this.2]

/-- The standard encoding contains no line break. -/
theorem filter_EncodeToString (b : List Nat) (hb : ∀ x ∈ b, x < 256) :
    (EncodeToString b).filter (fun c => !(c = '\n' || c = '\r')) = EncodeToString b := by
  rw [List.filter_eq_self]
  induction b using EncodeToString.induct with
  | case1 => simp [EncodeToString]
  | case2 a =>
    have ha : a < 256 := hb a (by simp)
    intro c hc
    simp only [EncodeToString, List.mem_cons, List.mem_singleton, List.not_mem_nil,
      or_false] at hc
    rcases hc with rfl | rfl | rfl | rfl <;>
      first | exact b64Char_keep _ (by omega) | decide
  | case3 a b =>
    have ha : a < 256 := hb a (by simp)
    have hb' : b < 256 := hb b (by simp)
    intro c hc
    simp only [EncodeToString, List.mem_cons, List.mem_singleton, List.not_mem_nil,
      or_false] at hc
    rcases hc with rfl | rfl | rfl | rfl <;>
      first | exact b64Char_keep _ (by omega) | decide
  | case4 a b c rest ih =>
    have ha : a < 256 := hb a (by simp)
    have hb' : b < 256 := hb b (by simp)
    have hc : c < 256 := hb c (by simp)
    have hrest : ∀ x ∈ rest, x < 256 := fun x hx => hb x (by simp [hx])
    intro x hx
    simp only [EncodeToString, List.mem_cons] at hx
    rcases hx with rfl | rfl | rfl | rfl | hx
    · exact b64Char_keep _ (by omega)
    · exact b64Char_keep _ (by omega)
    · exact b64Char_keep _ (by omega)
    · exact b64Char_keep _ (by omega)
    · exact ih hrest x hx

/-- Decoding the quanta of the standard encoding gives the bytes back. -/
theorem decodeQuanta_EncodeToString (b : List Nat) (hb : ∀ x ∈ b, x < 256) :
    decodeQuanta (EncodeToString b) = some b := by
  induction b using EncodeToString.induct with
  | case1 => simp [EncodeToString, decodeQuanta]
  | case2 a =>
    have ha : a < 256 := hb a (by simp)
    simp only [EncodeToString, decodeQuanta, b64Index_b64Char (a / 4) (by omega),
      b64Index_b64Char (a % 4 * 16) (by omega), if_true, and_self, Option.some.injEq,
      List.cons.injEq, and_true]
    omega
  | case3 a b =>
    have ha : a < 256 := hb a (by simp)
    have hb' : b < 256 := hb b (by simp)
    simp only [EncodeToString, decodeQuanta, b64Index_b64Char (a / 4) (by omega),
      b64Index_b64Char (a % 4 * 16 + b / 16) (by omega),
      b64Index_b64Char (b % 16 * 4) (by omega),
      if_neg (b64Char_ne_pad (b % 16 * 4) (by omega)), if_true, Option.some.injEq,
      List.cons.injEq, and_true]
    omega
  | case4 a b c rest ih =>
    have ha : a < 256 := hb a (by simp)
    have hb' : b < 256 := hb b (by simp)
    have hc : c < 256 := hb c (by simp)
    have hrest : ∀ x ∈ rest, x < 256 := fun x hx => hb x (by simp [hx])
    simp only [EncodeToString, decodeQuanta, b64Index_b64Char (a / 4) (by omega),
      b64Index_b64Char (a % 4 * 16 + b / 16) (by omega),
      b64Index_b64Char (b % 16 * 4 + c / 64) (by omega),
      b64Index_b64Char (c % 64) (by omega),
      if_neg (b64Char_ne_pad (b % 16 * 4 + c / 64) (by omega)),
      if_neg (b64Char_ne_pad (c % 64) (by omega)), ih hrest, Option.map_some',
      Option.some.injEq, List.cons.injEq, and_true]
    omega

theorem DecodeString_EncodeToString (b : List Nat) (hb : ∀ x ∈ b, x < 256) :
    DecodeString ⟨EncodeToString b⟩ = (b, none) := by
  simp only [DecodeString, filter_EncodeToString b hb, decodeQuanta_EncodeToString b hb]

/-- C8. For a Bytes source and a dynamic destination, the token holding the
standard padded base64 encoding of a byte sequence `b` decodes without error
and the destination then holds exactly the byte sequence `b`. -/
theorem bytes_dynamic_roundtrip (H : Host) (t : RType) (b : List Nat) (rest : List Token)
    (e : Option String) (cache : String) (dest : Slot)
    (hk : t.kind = .Interface) (hb : ∀ x ∈ b, x < 256) :
    ∃ fn, (baseUnmarshaler H "BYTES" t).1 = some fn
      ∧ fn ⟨⟨.str ⟨EncodeToString b⟩ :: rest, e⟩, cache⟩ dest
          = ⟨⟨⟨rest, e⟩, cache⟩, .iface (some (.bytes b)), none⟩ := by
  obtain ⟨k, nm, c1, c2⟩ := t
  simp only at hk
  subst hk
  refine ⟨bytesIntoInterface, by simp [baseUnmarshaler], ?_⟩
  simp [bytesIntoInterface, decodeString, StringNull, DecodeString_EncodeToString b hb]

/-- Witness of C8: the bytes of `hello`, whose encoding is `aGVsbG8=`. -/
theorem bytes_dynamic_roundtrip_witness :
    ((⟨EncodeToString [104, 101, 108, 108, 111]⟩ : String) = "aGVsbG8="
      ∧ ∀ x ∈ [104, 101, 108, 108, 111], x < 256)
    ∧ ∃ fn, (baseUnmarshaler sampleHost "BYTES" { kind := .Interface, name := "interface" }).1
          = some fn
      ∧ fn ⟨⟨.str ⟨EncodeToString [104, 101, 108, 108, 111]⟩ :: [], none⟩, ""⟩ (.iface none)
          = ⟨⟨⟨[], none⟩, ""⟩, .iface (some (.bytes [104, 101, 108, 108, 111])), none⟩ :=
  ⟨⟨by decide, by decide⟩,
   bytes_dynamic_roundtrip sampleHost { kind := .Interface, name := "interface" }
     [104, 101, 108, 108, 111] [] none "" (.iface none) rfl (by decide)⟩

/-- C9. For a Bytes source with a dynamic or a slice destination, resolution
returns a decode function and no error, and a present token whose text is not
valid standard base64 makes the decode function return the error of
`base64.StdEncoding.DecodeString`, with the destination untouched: the text is
judged at decode time, token by token. -/
theorem invalid_base64_fails_at_decode (H : Host) (t : RType) (s : String)
    (rest : List Token) (e : Option String) (cache : String) (dest : Slot)
    (hk : t.kind = .Interface ∨ t.kind = .Slice) (hs : (DecodeString s).2 ≠ none) :
    ∃ fn, baseUnmarshaler H "BYTES" t = (some fn, none)
      ∧ (fn ⟨⟨.str s :: rest, e⟩, cache⟩ dest).err = (DecodeString s).2
      ∧ (fn ⟨⟨.str s :: rest, e⟩, cache⟩ dest).err ≠ none
      ∧ (fn ⟨⟨.str s :: rest, e⟩, cache⟩ dest).dest = dest := by
  obtain ⟨k, nm, c1, c2⟩ := t
  simp only at hk
  rcases hk with hk | hk <;> subst hk
  · refine ⟨bytesIntoInterface, by simp [baseUnmarshaler], ?_⟩
    simp [bytesIntoInterface, decodeString, StringNull, hs]
  · refine ⟨bytesIntoSlice, by simp [baseUnmarshaler], ?_⟩
    simp [bytesIntoSlice, decodeString, StringNull, hs]

/-- Witness of C9: the token `"!!!"` for a BYTES column bound to a byte
slice. -/
theorem invalid_base64_fails_at_decode_witness :
    (DecodeString "!!!").2 ≠ none
    ∧ ∃ fn, baseUnmarshaler sampleHost "BYTES" { kind := .Slice, name := "[]uint8" }
          = (some fn, none)
      ∧ (fn ⟨⟨.str "!!!" :: [], none⟩, ""⟩ (.slice none)).err = (DecodeString "!!!").2
      ∧ (fn ⟨⟨.str "!!!" :: [], none⟩, ""⟩ (.slice none)).err ≠ none
      ∧ (fn ⟨⟨.str "!!!" :: [], none⟩, ""⟩ (.slice none)).dest = .slice none :=
  ⟨by decide,
   invalid_base64_fails_at_decode sampleHost { kind := .Slice, name := "[]uint8" } "!!!"
     [] none "" (.slice none) (Or.inr rfl) (by decide)⟩

/-! ## Temporal values -/

/-- C10 fails on the code. On the numeric token `1625097600.5`, which
`Float64Null` reads without error, `decodeTime` drops the number read and
takes the value from `decodeFloat`, which reads the following token as a
string. Followed by `null` the result is "absent"; followed by a string it is
the verdict of `strconv.ParseFloat` on that string; and whatever follows, the
result is the one for the numeric token `0` in its place. On the tokens
`1625097600.5`, `"n"` the result is an error, and on `1625097600.5`, `"0"` it
is the Unix epoch, not the instant 1625097600.5 s after it. -/
theorem decodeTime_number_reads_next_token :
    (∀ (H : Host) (rest : List Token) (e : Option String) (cache : String),
      decodeTime H ⟨⟨.num "1625097600.5" :: .null :: rest, e⟩, cache⟩
        = ((none, false, none), ⟨⟨rest, e⟩, cache⟩))
    ∧ (∀ (H : Host) (s : String) (rest : List Token) (e : Option String) (cache : String),
      (decodeTime H ⟨⟨.num "1625097600.5" :: .str s :: rest, e⟩, cache⟩).1.2.2
        = (H.parseFloat s).2)
    ∧ (∀ (H : Host) (rest : List Token) (e : Option String) (cache : String),
      decodeTime H ⟨⟨.num "1625097600.5" :: rest, e⟩, cache⟩
        = decodeTime H ⟨⟨.num "0" :: rest, e⟩, cache⟩)
    ∧ decodeTime sampleHost ⟨⟨[.num "1625097600.5", .str "n"], none⟩, ""⟩
        = ((none, false, some "invalid syntax"), ⟨⟨[], none⟩, ""⟩)
    ∧ decodeTime sampleHost ⟨⟨[.num "1625097600.5", .str "0"], none⟩, ""⟩
        = ((some ⟨0⟩, true, none), ⟨⟨[], none⟩, ""⟩)
    ∧ (⟨0⟩ : Time) ≠ Time.Unix0 (1625097600500000 * 1000) := by
  refine ⟨?_, ?_, ?_, ?_, ?_, ?_⟩
  · intro H rest e cache
    simp [decodeTime, Float64Null, decodeFloat, StringNull]
  · intro H s rest e cache
    simp [decodeTime, Float64Null, decodeFloat, StringNull]
    split_ifs <;> simp_all
  · intro H rest e cache
    simp [decodeTime, Float64Null]
  · decide
  · decide
  · decide

/-- A number that `Float64Null` rejects sends `decodeTime` to its string
branch with the cursor past the number: on the tokens `1e20`, `"2021-07-01"`
the following string is parsed by `parseTime`, the result is the instant of
that date, and the layout that parsed it becomes the cache. -/
theorem decodeTime_rejected_number_parses_next_text :
    (decodeTime calendarHost
        ⟨⟨[.numRejected "1e20", .str "2021-07-01", .str "next"], none⟩, ""⟩).1
      = (some ⟨1625097600000000000⟩, true, none)
    ∧ (decodeTime calendarHost
        ⟨⟨[.numRejected "1e20", .str "2021-07-01", .str "next"], none⟩, ""⟩).2.dec.input
      = [.str "next"]
    ∧ (decodeTime calendarHost
        ⟨⟨[.numRejected "1e20", .str "2021-07-01", .str "next"], none⟩, ""⟩).2.dateLayoutCache
      = "2006-01-02" := by
  decide

/-! ## The layout cache -/

/-- With a cached layout that parses the text, the loop returns at once. -/
theorem parseTimeLoop_cached (H : Host) (s cache layout : String) (rest : List String)
    (res : Time × Option String) (hc : cache ≠ "") (hp : parses H s cache = true) :
    parseTimeLoop H s (layout :: rest) cache res = (((H.timeParse cache s).1, none), cache) := by
  simp only [parses, decide_eq_true_eq] at hp
  simp [parseTimeLoop, hc, hp]

/-- Without a cached layout that parses the text, the loop is a search for
the first layout of the list that parses it; when there is none, the result
is what the last layout returned, or the initial result on an empty list. -/
theorem parseTimeLoop_scan (H : Host) (s cache : String)
    (hc : ¬(cache ≠ "" ∧ parses H s cache = true)) (ls : List String)
    (res : Time × Option String) :
    parseTimeLoop H s ls cache res =
      match ls.find? (parses H s) with
      | some layout => (((H.timeParse layout s).1, none), layout)
      | none => ((ls.getLast?.map (fun layout => H.timeParse layout s)).getD res, cache) := by
  have hc' : ¬(cache ≠ "" ∧ (H.timeParse cache s).2 = none) := by
    simpa [parses] using hc
  induction ls generalizing res with
  | nil => simp [parseTimeLoop]
  | cons layout rest ih =>
    simp only [parseTimeLoop, if_neg hc', List.find?_cons]
    by_cases hp : (H.timeParse layout s).2 = none
    · simp [parses, hp]
    · have hp' : parses H s layout = false := by simp [parses, hp]
      simp only [hp', if_neg hp]
      rw [ih]
      cases hf : rest.find? (parses H s) with
      | some l => rfl
      | none =>
        cases rest with
        | nil => simp
        | cons a as =>
          have hl := List.getLast?_eq_getLast (a :: as) (List.cons_ne_nil a as)
          simp [List.getLast?_cons_cons, hl]

theorem getLast_dateLayouts : dateLayouts.getLast? = some "2006/01/02 15:04:05" := by
  decide

/-- The refinement of `parseTime` to the reference algorithm, up to the time
value returned with an error, which is the one `time.Parse` returned. -/
theorem parseTime_eq (H : Host) (cache s : String) :
    parseTime H cache s =
      if cache ≠ "" ∧ parses H s cache = true then (((H.timeParse cache s).1, none), cache)
      else
        match dateLayouts.find? (parses H s) with
        | some layout => (((H.timeParse layout s).1, none), layout)
        | none => (H.timeParse "2006/01/02 15:04:05" s, cache) := by
  by_cases hc : cache ≠ "" ∧ parses H s cache = true
  · rw [if_pos hc]
    exact parseTimeLoop_cached H s cache _ _ _ hc.1 hc.2
  · rw [if_neg hc]
    unfold parseTime
    rw [parseTimeLoop_scan H s cache hc, getLast_dateLayouts]
    rfl

theorem last_mem_dateLayouts : "2006/01/02 15:04:05" ∈ dateLayouts := by
  decide

/-- The cache after a call is the cache before it or a layout of the list. -/
theorem parseTime_cache (H : Host) (cache s : String) :
    (parseTime H cache s).2 = cache ∨ (parseTime H cache s).2 ∈ dateLayouts := by
  rw [parseTime_eq]
  split_ifs with hc
  · exact Or.inl rfl
  · cases hf : dateLayouts.find? (parses H s) with
    | some l => exact Or.inr (List.mem_of_find?_eq_some hf)
    | none => exact Or.inl rfl

/-- A call succeeds exactly when the cached layout or a layout of the list
parses the text. -/
theorem parseTime_ok_iff (H : Host) (cache s : String) :
    (parseTime H cache s).1.2 = none ↔
      (cache ≠ "" ∧ parses H s cache = true) ∨ ∃ layout ∈ dateLayouts, parses H s layout = true := by
  rw [parseTime_eq]
  split_ifs with hc
  · simp [hc]
  · cases hf : dateLayouts.find? (parses H s) with
    | some l =>
      simp only [true_iff]
      exact Or.inr ⟨l, List.mem_of_find?_eq_some hf, List.find?_some hf⟩
    | none =>
      have hall := List.find?_eq_none.mp hf
      have hlast := hall _ last_mem_dateLayouts
      simp only [parses, decide_eq_true_eq] at hlast
      constructor
      · intro h; exact absurd h hlast
      · rintro (h | ⟨l, hl, hp⟩)
        · exact absurd h hc
        · exact absurd hp (hall l hl)

/-- The cache stays empty or a layout of the list over any sequence of
calls. -/
theorem parseTimeSeq_cache (H : Host) (ss : List String) (cache : String)
    (h : cache = "" ∨ cache ∈ dateLayouts) :
    (parseTimeSeq H cache ss).2 = "" ∨ (parseTimeSeq H cache ss).2 ∈ dateLayouts := by
  induction ss generalizing cache with
  | nil => exact h
  | cons s ss ih =>
    simp only [parseTimeSeq]
    apply ih
    rcases parseTime_cache H cache s with h1 | h1
    · rw [h1]; exact h
    · exact Or.inr h1

/-- Over a sequence of calls from a cache that is empty or a layout of the
list, a call succeeds exactly when a layout of the list parses its text. -/
theorem parseTimeSeq_ok (H : Host) (ss : List String) (cache : String)
    (h : cache = "" ∨ cache ∈ dateLayouts) :
    (parseTimeSeq H cache ss).1.map (fun r => decide (r.2 = none))
      = ss.map (fun s => dateLayouts.any (parses H s)) := by
  induction ss generalizing cache with
  | nil => rfl
  | cons s ss ih =>
    have hnext : (parseTime H cache s).2 = "" ∨ (parseTime H cache s).2 ∈ dateLayouts := by
      rcases parseTime_cache H cache s with h1 | h1
      · rw [h1]; exact h
      · exact Or.inr h1
    simp only [parseTimeSeq, List.map_cons, ih _ hnext, List.cons.injEq, and_true]
    rw [Bool.eq_iff_iff, decide_eq_true_eq, parseTime_ok_iff, List.any_eq_true]
    constructor
    · rintro (⟨hne, hp⟩ | hex)
      · rcases h with h | h
        · exact absurd h hne
        · exact ⟨cache, h, hp⟩
      · exact hex
    · intro hex; exact Or.inr hex

/-- The time parser of `calendarHost` returns the zero time with an error. -/
theorem calendarHost_zero (layout s : String)
    (h : (calendarHost.timeParse layout s).2 ≠ none) :
    (calendarHost.timeParse layout s).1 = Time.zero := by
  revert h
  simp only [calendarHost]
  split_ifs
  · cases parseDate s.data <;> simp
  · cases parseDateUS s.data <;> simp
  · simp

/-- C11. With `time.Parse` a function of layout and text that returns the
zero time with an error, `parseTime` on a text and a cache returns what the
reference algorithm returns, value, error and cache: the cached layout when
there is one and it parses the text, otherwise the first layout of
`dateLayouts` in list order that parses it, which becomes the cache. The
retry of the cached layout in every iteration changes nothing. -/
theorem parseTime_refines_reference (H : Host) (cache s : String)
    (hz : ∀ layout, (H.timeParse layout s).2 ≠ none → (H.timeParse layout s).1 = Time.zero) :
    parseTime H cache s = parseTimeRef H cache s := by
  rw [parseTime_eq]
  unfold parseTimeRef
  split_ifs with hc
  · rfl
  · cases hf : dateLayouts.find? (parses H s) with
    | some l => rfl
    | none =>
      have hlast := List.find?_eq_none.mp hf _ last_mem_dateLayouts
      simp only [parses, decide_eq_true_eq] at hlast
      simp only [Prod.mk.injEq, and_true]
      exact Prod.ext (hz _ hlast) rfl

/-- Witness of C11: a stale cache `01/02/2006` and the text `2021-07-01`;
the scan finds `2006-01-02`, which becomes the cache. -/
theorem parseTime_refines_reference_witness :
    parseTimeRef calendarHost "01/02/2006" "2021-07-01"
        = ((⟨1625097600000000000⟩, none), "2006-01-02")
    ∧ parseTime calendarHost "01/02/2006" "2021-07-01"
        = parseTimeRef calendarHost "01/02/2006" "2021-07-01" :=
  ⟨by decide,
   parseTime_refines_reference calendarHost "01/02/2006" "2021-07-01"
     (fun layout => calendarHost_zero layout "2021-07-01")⟩


/-- C12. From a cache that is empty or one of the listed layouts,
`parseTime` succeeds if and only if at least one layout of `dateLayouts`
parses the text; and over any sequence of calls that starts from the empty
cache, each call succeeds exactly when a listed layout parses its text,
whatever was parsed before it. -/
theorem parseTime_succeeds_iff_some_layout (H : Host) (cache s : String)
    (hcache : cache = "" ∨ cache ∈ dateLayouts) :
    ((parseTime H cache s).1.2 = none ↔
        ∃ layout ∈ dateLayouts, (H.timeParse layout s).2 = none)
    ∧ ∀ ss : List String,
        (parseTimeSeq H "" ss).1.map (fun r => decide (r.2 = none))
          = ss.map (fun text => dateLayouts.any (parses H text)) := by
  refine ⟨?_, fun ss => parseTimeSeq_ok H ss "" (Or.inl rfl)⟩
  rw [parseTime_ok_iff]
  simp only [parses, decide_eq_true_eq]
  constructor
  · rintro (⟨hne, hp⟩ | hex)
    · rcases hcache with h | h
      · exact absurd h hne
      · exact ⟨cache, h, hp⟩
    · exact hex
  · intro hex; exact Or.inr hex

/-- Witness of C12: the stale cache `01/02/2006` and the text `2021-07-01`,
which the listed layout `2006-01-02` parses; the call succeeds. -/
theorem parseTime_succeeds_iff_some_layout_witness :
    ("01/02/2006" ∈ dateLayouts
      ∧ (parseTime calendarHost "01/02/2006" "2021-07-01").1.2 = none
      ∧ (parseTimeSeq calendarHost "" ["07/01/2021", "2021-07-01", "07/02/2021"]).1
          = [(⟨1625097600000000000⟩, none), (⟨1625097600000000000⟩, none),
             (⟨1625184000000000000⟩, none)])
    ∧ ((parseTime calendarHost "01/02/2006" "2021-07-01").1.2 = none ↔
        ∃ layout ∈ dateLayouts, (calendarHost.timeParse layout "2021-07-01").2 = none)
    ∧ ∀ ss : List String,
        (parseTimeSeq calendarHost "" ss).1.map (fun r => decide (r.2 = none))
          = ss.map (fun text => dateLayouts.any (parses calendarHost text)) :=
  ⟨⟨by decide, by decide, by decide⟩,
   parseTime_succeeds_iff_some_layout calendarHost "01/02/2006" "2021-07-01"
     (Or.inr (by decide))⟩

/-- C13. When neither the cached layout nor any layout of `dateLayouts`
parses the text, `parseTime` returns the error that `time.Parse` gave for the
last layout of the list, `2006/01/02 15:04:05`, with the time value that call
returned, which is the zero time, and leaves the cache as it was. -/
theorem parseTime_failure_is_last_layout (H : Host) (cache s : String)
    (hcached : cache = "" ∨ (H.timeParse cache s).2 ≠ none)
    (hnone : ∀ layout ∈ dateLayouts, (H.timeParse layout s).2 ≠ none)
    (hz : ∀ layout, (H.timeParse layout s).2 ≠ none → (H.timeParse layout s).1 = Time.zero) :
    parseTime H cache s = ((Time.zero, (H.timeParse "2006/01/02 15:04:05" s).2), cache)
    ∧ (parseTime H cache s).1.2 ≠ none
    ∧ dateLayouts.getLast? = some "2006/01/02 15:04:05" := by
  have hlast := hnone _ last_mem_dateLayouts
  have hc : ¬(cache ≠ "" ∧ parses H s cache = true) := by
    simp only [parses, decide_eq_true_eq]
    rintro ⟨hne, hp⟩
    rcases hcached with h | h
    · exact hne h
    · exact h hp
  have hf : dateLayouts.find? (parses H s) = none := by
    rw [List.find?_eq_none]
    intro l hl
    simpa [parses] using hnone l hl
  have heq : parseTime H cache s
      = ((Time.zero, (H.timeParse "2006/01/02 15:04:05" s).2), cache) := by
    rw [parseTime_eq, if_neg hc, hf]
    exact Prod.ext (Prod.ext (hz _ hlast) rfl) rfl
  refine ⟨heq, ?_, getLast_dateLayouts⟩
  rw [heq]
  exact hlast

/-- Witness of C13: the text `yesterday` with the cache `2006-01-02`. -/
theorem parseTime_failure_is_last_layout_witness :
    parseTime calendarHost "2006-01-02" "yesterday"
        = ((Time.zero, (calendarHost.timeParse "2006/01/02 15:04:05" "yesterday").2),
            "2006-01-02")
    ∧ (parseTime calendarHost "2006-01-02" "yesterday").1.2 ≠ none
    ∧ dateLayouts.getLast? = some "2006/01/02 15:04:05" :=
  parseTime_failure_is_last_layout calendarHost "2006-01-02" "yesterday"
    (Or.inr (by decide)) (by decide)
    (fun layout => calendarHost_zero layout "yesterday")

/-- C19. Starting from the empty cache, after any sequence of `parseTime`
calls the layout cache is empty or an entry of `dateLayouts`; a call that
fails leaves the cache unchanged, and so does a call that succeeds through
the cached layout, which returns what that layout parsed. -/
theorem layout_cache_invariant (H : Host) :
    (∀ ss : List String,
      (parseTimeSeq H "" ss).2 = "" ∨ (parseTimeSeq H "" ss).2 ∈ dateLayouts)
    ∧ (∀ cache s : String,
        (parseTime H cache s).1.2 ≠ none → (parseTime H cache s).2 = cache)
    ∧ (∀ cache s : String, cache ≠ "" → (H.timeParse cache s).2 = none →
        parseTime H cache s = (((H.timeParse cache s).1, none), cache)) := by
  refine ⟨fun ss => parseTimeSeq_cache H ss "" (Or.inl rfl), ?_, ?_⟩
  · intro cache s herr
    rw [parseTime_eq] at herr ⊢
    split_ifs at herr ⊢ with hc
    · exact absurd rfl herr
    · cases hf : dateLayouts.find? (parses H s) with
      | some l => rw [hf] at herr; exact absurd rfl herr
      | none => rfl
  · intro cache s hne hp
    rw [parseTime_eq, if_pos ⟨hne, by simpa [parses] using hp⟩]

/-- Witness of C19: three calls from the empty cache, the second of which
fails, and a call that succeeds through the cached layout. -/
theorem layout_cache_invariant_witness :
    ((parseTimeSeq calendarHost "" ["07/01/2021", "yesterday", "2021-07-01"]).2 = "2006-01-02"
      ∧ (parseTime calendarHost "01/02/2006" "yesterday").2 = "01/02/2006"
      ∧ parseTime calendarHost "01/02/2006" "07/01/2021"
          = ((⟨1625097600000000000⟩, none), "01/02/2006"))
    ∧ (∀ ss : List String,
      (parseTimeSeq calendarHost "" ss).2 = ""
        ∨ (parseTimeSeq calendarHost "" ss).2 ∈ dateLayouts)
    ∧ (∀ cache s : String,
        (parseTime calendarHost cache s).1.2 ≠ none → (parseTime calendarHost cache s).2 = cache)
    ∧ (∀ cache s : String, cache ≠ "" → (calendarHost.timeParse cache s).2 = none →
        parseTime calendarHost cache s = (((calendarHost.timeParse cache s).1, none), cache)) :=
  ⟨⟨by decide, by decide, by decide⟩, layout_cache_invariant calendarHost⟩


/-! ## Booleans -/

/-- C14, as stated, fails: `decodeBool` takes the present tokens `"1"`,
`"T"`, `"TRUE"` and `"True"` for true and `"0"` for false, as
`strconv.ParseBool` does, and returns no error. -/
theorem decodeBool_accepts_other_spellings :
    decodeBool ⟨[.str "1"], none⟩ = ((true, true, none), ⟨[], none⟩)
    ∧ decodeBool ⟨[.str "T"], none⟩ = ((true, true, none), ⟨[], none⟩)
    ∧ decodeBool ⟨[.str "TRUE"], none⟩ = ((true, true, none), ⟨[], none⟩)
    ∧ decodeBool ⟨[.str "True"], none⟩ = ((true, true, none), ⟨[], none⟩)
    ∧ decodeBool ⟨[.str "0"], none⟩ = ((false, true, none), ⟨[], none⟩) := by
  decide

/-- C14, amended. On a present string token `decodeBool` returns true for
the six texts `1`, `t`, `T`, `TRUE`, `true`, `True`, false for the six texts
`0`, `f`, `F`, `FALSE`, `false`, `False`, and an error, with no value
present, for every other text; the token is consumed in all three cases. -/
theorem decodeBool_spellings (t : String) (rest : List Token) (e : Option String) :
    (t ∈ ["1", "t", "T", "TRUE", "true", "True"] →
      decodeBool ⟨.str t :: rest, e⟩ = ((true, true, none), ⟨rest, e⟩))
    ∧ (t ∈ ["0", "f", "F", "FALSE", "false", "False"] →
      decodeBool ⟨.str t :: rest, e⟩ = ((false, true, none), ⟨rest, e⟩))
    ∧ (t ∉ ["1", "t", "T", "TRUE", "true", "True"] →
       t ∉ ["0", "f", "F", "FALSE", "false", "False"] →
      decodeBool ⟨.str t :: rest, e⟩ = ((false, false, some "invalid syntax"), ⟨rest, e⟩)) := by
  refine ⟨?_, ?_, ?_⟩
  · intro h
    have hp : ParseBool t = (true, none) := by unfold ParseBool; rw [if_pos h]
    simp [decodeBool, StringNull, hp]
  · intro h
    have hn : t ∉ ["1", "t", "T", "TRUE", "true", "True"] := by
      intro h1
      simp only [List.mem_cons, List.mem_singleton, List.not_mem_nil, or_false] at h h1
      rcases h with rfl | rfl | rfl | rfl | rfl | rfl <;> revert h1 <;> decide
    have hp : ParseBool t = (false, none) := by unfold ParseBool; rw [if_neg hn, if_pos h]
    simp [decodeBool, StringNull, hp]
  · intro h1 h2
    have hp : ParseBool t = (false, some "invalid syntax") := by
      unfold ParseBool; rw [if_neg h1, if_neg h2]
    simp [decodeBool, StringNull, hp]

/-- Witness of the amended C14: `true`, `false` and the mixed-case text
`tRUE`, which is rejected. -/
theorem decodeBool_spellings_witness :
    decodeBool ⟨.str "true" :: [], none⟩ = ((true, true, none), ⟨[], none⟩)
    ∧ decodeBool ⟨.str "false" :: [], none⟩ = ((false, true, none), ⟨[], none⟩)
    ∧ decodeBool ⟨.str "tRUE" :: [], none⟩
        = ((false, false, some "invalid syntax"), ⟨[], none⟩) :=
  ⟨(decodeBool_spellings "true" [] none).1 (by decide),
   (decodeBool_spellings "false" [] none).2.1 (by decide),
   (decodeBool_spellings "tRUE" [] none).2.2 (by decide) (by decide)⟩

/-- C15, as stated, fails: a BOOLEAN column bound to the platform-width
kinds `int` and `uint` resolves to a decode function with no error. -/
theorem boolean_resolves_for_int_and_uint :
    resolved (baseUnmarshaler sampleHost "BOOLEAN" { kind := .Int, name := "int" })
    ∧ resolved (baseUnmarshaler sampleHost "BOOLEAN" { kind := .Uint, name := "uint" }) := by
  constructor <;> simp [resolved, baseUnmarshaler]

/-- C15, amended. For a Boolean source, resolution succeeds exactly for a
bool, string, dynamic, 8-bit integer or platform-width `int` or `uint`
destination; for every other destination kind, including the integers of
width 16, 32 and 64, `baseUnmarshaler` returns an error and no decode
function. -/
theorem boolean_resolution (H : Host) (t : RType) :
    (t.kind ∈ [Kind.Bool, .String, .Interface, .Int8, .Uint8, .Int, .Uint] →
      resolved (baseUnmarshaler H "BOOLEAN" t))
    ∧ (t.kind ∉ [Kind.Bool, .String, .Interface, .Int8, .Uint8, .Int, .Uint] →
      rejected (baseUnmarshaler H "BOOLEAN" t)) := by
  obtain ⟨k, n, c1, c2⟩ := t
  constructor <;> intro h <;> cases k <;>
    first
    | (simp [resolved, rejected, baseUnmarshaler]; done)
    | (exfalso; revert h; simp)

/-- Witness of the amended C15: an `int8` destination resolves, an `int64`
destination is rejected. -/
theorem boolean_resolution_witness :
    resolved (baseUnmarshaler sampleHost "BOOLEAN" { kind := .Int8, name := "int8" })
    ∧ rejected (baseUnmarshaler sampleHost "BOOLEAN" { kind := .Int64, name := "int64" }) :=
  ⟨(boolean_resolution sampleHost { kind := .Int8, name := "int8" }).1 (by decide),
   (boolean_resolution sampleHost { kind := .Int64, name := "int64" }).2 (by decide)⟩


/-! ## Dynamic destinations -/

/-- C16, as stated, fails: for an INT64 column bound to a dynamic field, the
token `"42"` leaves the dynamic value 42 of concrete type `int`, the type of
the value `decodeInt` returns, which is not the dynamic value 42 of type
`int64`. -/
theorem integer_dynamic_is_int_not_int64 :
    (baseUnmarshaler sampleHost "INT64" { kind := .Interface, name := "interface" }).1.map
        (fun fn => (fn ⟨⟨[.str "42"], none⟩, ""⟩ (.iface none)).dest)
      = some (.iface (some (.int 42)))
    ∧ Slot.iface (some (Dyn.int 42)) ≠ Slot.iface (some (Dyn.int64 42)) := by
  decide

/-- C16, amended. For every Integer source alias and a dynamic destination,
a present token whose text denotes an integer `n` of the signed 64-bit range
decodes without error and leaves a dynamic value of concrete type `int` (the
platform integer, 64 bits wide here) with value `n`. -/
theorem integer_dynamic_stores_int (H : Host) (sourceType : String) (t : RType)
    (s : String) (n : Int) (rest : List Token) (e : Option String) (cache : String)
    (dest : Slot)
    (hsrc : sourceTypeOf sourceType = some .Integer) (hk : t.kind = .Interface)
    (hs : parseSigned s.data = some n)
    (h1 : -(2 : Int) ^ 63 ≤ n) (h2 : n < (2 : Int) ^ 63) :
    ∃ fn, (baseUnmarshaler H sourceType t).1 = some fn
      ∧ fn ⟨⟨.str s :: rest, e⟩, cache⟩ dest
          = ⟨⟨⟨rest, e⟩, cache⟩, .iface (some (.int n)), none⟩ := by
  have hmem := integer_alias sourceType hsrc
  obtain ⟨k, nm, c1, c2⟩ := t
  simp only at hk
  subst hk
  refine ⟨intIntoInterface, ?_, ?_⟩
  · simp only [baseUnmarshaler, if_pos hmem]
  · simp [intIntoInterface, decodeInt_present s n rest e hs h1 h2]

/-- Witness of the amended C16: the token `"-7"` of a BIGINT column. -/
theorem integer_dynamic_stores_int_witness :
    ∃ fn, (baseUnmarshaler sampleHost "BIGINT" { kind := .Interface, name := "interface" }).1
          = some fn
      ∧ fn ⟨⟨.str "-7" :: [], none⟩, ""⟩ (.iface none)
          = ⟨⟨⟨[], none⟩, ""⟩, .iface (some (.int (-7))), none⟩ :=
  integer_dynamic_stores_int sampleHost "BIGINT" { kind := .Interface, name := "interface" }
    "-7" (-7) [] none "" (.iface none) (by decide) rfl (by decide) (by decide) (by decide)

theorem temporal_alias (sourceType : String) (h : sourceTypeOf sourceType = some .Temporal) :
    sourceType ∉ ["BIGNUMERIC", "BIGDECIMAL", "INT64", "INT", "SMALLINT", "INTEGER",
      "BIGINT", "TINYINT", "BYTEINT"]
    ∧ sourceType ≠ "BYTES" ∧ sourceType ≠ "STRING"
    ∧ sourceType ∉ ["NUMERIC", "DECIMAL", "FLOAT64", "FLOAT"]
    ∧ sourceType ∈ ["TIME", "TIMESTAMP", "DATE", "DATETIME"] := by
  simp only [sourceTypeOf] at h
  split_ifs at h <;> first | (simp at h; done) | exact ⟨‹_›, ‹_›, ‹_›, ‹_›, ‹_›⟩

/-- C17, as stated, fails: for a TIMESTAMP column bound to a dynamic field, a
run that decodes a time leaves in the field the pointer `decodeTime`
returned, a `*time.Time`, which is not the `time.Time` it points at. -/
theorem temporal_dynamic_is_pointer :
    (baseUnmarshaler sampleHost "TIMESTAMP" { kind := .Interface, name := "interface" }).1.map
        (fun fn => fn ⟨⟨[.num "5", .str "5"], none⟩, ""⟩ (.iface none))
      = some ⟨⟨⟨[], none⟩, ""⟩, .iface (some (.timePtr ⟨5000000000⟩)), none⟩
    ∧ Slot.iface (some (Dyn.timePtr ⟨5000000000⟩)) ≠ Slot.iface (some (Dyn.time ⟨5000000000⟩)) := by
  decide

/-- C17, amended. For every Temporal source alias and a dynamic destination,
a run in which `decodeTime` reports a present time without error leaves in
the destination the pointer to that time (a `*time.Time`), and every other
run leaves the destination as it was. -/
theorem temporal_dynamic_stores_pointer (H : Host) (sourceType : String) (t : RType)
    (st : State) (dest : Slot)
    (hsrc : sourceTypeOf sourceType = some .Temporal) (hk : t.kind = .Interface) :
    ∃ fn, (baseUnmarshaler H sourceType t).1 = some fn
      ∧ (∀ tm st1, decodeTime H st = ((some tm, true, none), st1) →
          fn st dest = ⟨st1, .iface (some (.timePtr tm)), none⟩)
      ∧ ((fn st dest).dest = dest
          ∨ ∃ tm, (decodeTime H st).1 = (some tm, true, none)
              ∧ (fn st dest).dest = .iface (some (.timePtr tm))) := by
  obtain ⟨h1, h2, h3, h4, h5⟩ := temporal_alias sourceType hsrc
  obtain ⟨k, nm, c1, c2⟩ := t
  simp only at hk
  subst hk
  refine ⟨timeIntoInterface H, ?_, ?_, ?_⟩
  · simp only [baseUnmarshaler, if_neg h1, if_neg h2, if_neg h3, if_neg h4, if_pos h5]
  · intro tm st1 hd
    simp [timeIntoInterface, hd]
  · have hshape : ∀ r : (Option Time × Bool × Option String) × State,
        decodeTime H st = r →
        (r.1.2.2 ≠ none ∨ r.1.2.1 = false) ∨ ∃ tm, r.1 = (some tm, true, none) := by
      intro r hr
      subst hr
      simp only [decodeTime]
      split_ifs <;> simp
    rcases hshape _ rfl with hbad | ⟨tm, htm⟩
    · left
      simp only [timeIntoInterface]
      rcases hbad with hb | hb
      · simp [hb]
      · simp [hb]
    · right
      refine ⟨tm, htm, ?_⟩
      simp [timeIntoInterface, htm]

/-- Witness of the amended C17: the run of the counterexample. -/
theorem temporal_dynamic_stores_pointer_witness :
    ∃ fn, (baseUnmarshaler sampleHost "TIMESTAMP" { kind := .Interface, name := "interface" }).1
          = some fn
      ∧ (∀ tm st1, decodeTime sampleHost ⟨⟨[.num "5", .str "5"], none⟩, ""⟩
            = ((some tm, true, none), st1) →
          fn ⟨⟨[.num "5", .str "5"], none⟩, ""⟩ (.iface none)
            = ⟨st1, .iface (some (.timePtr tm)), none⟩)
      ∧ ((fn ⟨⟨[.num "5", .str "5"], none⟩, ""⟩ (.iface none)).dest = .iface none
          ∨ ∃ tm, (decodeTime sampleHost ⟨⟨[.num "5", .str "5"], none⟩, ""⟩).1
                = (some tm, true, none)
              ∧ (fn ⟨⟨[.num "5", .str "5"], none⟩, ""⟩ (.iface none)).dest
                = .iface (some (.timePtr tm))) :=
  temporal_dynamic_stores_pointer sampleHost "TIMESTAMP"
    { kind := .Interface, name := "interface" } ⟨⟨[.num "5", .str "5"], none⟩, ""⟩ (.iface none)
    (by decide) rfl


/-! ## Tokens consumed -/

/-- A pair whose source is not Temporal, or whose destination is a string,
resolves to a decode function that is not built on `decodeTime`. -/
theorem resolved_mem_plainClosures (H : Host) (sourceType : String) (t : RType)
    (fn : DecodeFn) (h : (baseUnmarshaler H sourceType t).1 = some fn)
    (hsrc : sourceTypeOf sourceType ≠ some .Temporal ∨ t.kind = .String) :
    fn ∈ plainClosures H := by
  obtain ⟨k, n, c1, c2⟩ := t
  simp only [baseUnmarshaler] at h
  simp only [sourceTypeOf] at hsrc
  split_ifs at h hsrc <;> cases k <;> simp at h hsrc <;> subst h <;> simp [plainClosures]

/-- A decode function not built on `decodeTime` moves the decoder by one
call of `StringNull` and nothing else. -/
theorem plainClosures_dec (H : Host) (fn : DecodeFn) (hfn : fn ∈ plainClosures H)
    (st : State) (dest : Slot) : (fn st dest).st.dec = (StringNull st.dec).2.2 := by
  simp only [plainClosures, List.mem_cons, List.mem_singleton, List.not_mem_nil,
    or_false] at hfn
  rcases hfn with h | h | h | h | h | h | h | h | h | h | h | h | h | h | h <;>
    subst h <;>
    simp only [intInto, stringInto, intIntoInterface, bytesIntoSlice, bytesIntoInterface,
      stringIntoInterface, floatInto32, floatInto64, floatIntoInterface, boolInto,
      boolIntoInt8, boolIntoInterface, decodeInt, decodeString, decodeFloat, decodeBool] <;>
    split_ifs <;> rfl

/-- The decode functions not built on `decodeTime` consume exactly one
token: for every pair that resolves to one of them (every supported pair whose
source is not Temporal, and Temporal with a string destination), a run on a
null, a string, a number or another well-formed value leaves the decoder on
the token after it. -/
theorem one_token_without_decodeTime (H : Host) (sourceType : String) (t : RType)
    (fn : DecodeFn) (tok : Token) (rest : List Token) (e : Option String) (cache : String)
    (dest : Slot)
    (h : (baseUnmarshaler H sourceType t).1 = some fn)
    (hsrc : sourceTypeOf sourceType ≠ some .Temporal ∨ t.kind = .String)
    (htok : ∀ moved, tok ≠ .bad moved) :
    (fn ⟨⟨tok :: rest, e⟩, cache⟩ dest).st.dec.input = rest := by
  rw [plainClosures_dec H fn (resolved_mem_plainClosures H sourceType t fn h hsrc)]
  cases tok <;> first | exact absurd rfl (htok _) | rfl

/-- C18 fails on the code for the decode functions built on `decodeTime`. For
a TIMESTAMP column bound to an `int64` field, a run on a numeric token
followed by a string token or by a null leaves the decoder after the second
token: `Float64Null` consumes the number and `decodeFloat` then reads the
token that follows it. -/
theorem decodeTime_consumes_two_tokens :
    (∀ (H : Host) (lit s : String) (rest : List Token) (e : Option String) (cache : String)
        (dest : Slot),
      (baseUnmarshaler H "TIMESTAMP" { kind := .Int64, name := "int64" }).1.map
          (fun fn => (fn ⟨⟨.num lit :: .str s :: rest, e⟩, cache⟩ dest).st.dec.input)
        = some rest)
    ∧ (∀ (H : Host) (lit : String) (rest : List Token) (e : Option String) (cache : String)
        (dest : Slot),
      (baseUnmarshaler H "TIMESTAMP" { kind := .Int64, name := "int64" }).1.map
          (fun fn => (fn ⟨⟨.num lit :: .null :: rest, e⟩, cache⟩ dest).st.dec.input)
        = some rest)
    ∧ (decodeTime sampleHost ⟨⟨[.num "1625097600.5", .str "7", .str "next"], none⟩, ""⟩).2.dec.input
        = [.str "next"] := by
  refine ⟨?_, ?_, by decide⟩
  · intro H lit s rest e cache dest
    simp only [baseUnmarshaler]
    simp [timeIntoInt64, decodeTime, Float64Null, decodeFloat, StringNull]
    split_ifs <;> rfl
  · intro H lit rest e cache dest
    simp only [baseUnmarshaler]
    simp [timeIntoInt64, decodeTime, Float64Null, decodeFloat, StringNull]

/-! ## Unsigned destinations -/

theorem wrapU_cast (w : Nat) (v : Int) : (wrapU w v : Int) = v % (2 : Int) ^ w := by
  unfold wrapU
  exact Int.toNat_of_nonneg (Int.emod_nonneg v (by positivity))

/-- C20. For an Integer source and an unsigned destination of width 8, 16,
32 or 64, a present token whose text denotes an integer `n` of the signed
64-bit range, negative ones included, decodes without error, and the
destination then reads, as an unsigned integer of that width, `n` modulo
`2 ^ w`: the two's-complement bit pattern of `n`. -/
theorem integer_into_unsigned (H : Host) (sourceType : String) (t : RType) (w : Nat)
    (s : String) (n : Int) (rest : List Token) (e : Option String) (cache : String)
    (dest : Slot)
    (hsrc : sourceTypeOf sourceType = some .Integer)
    (hk : (t.kind = .Uint8 ∧ w = 8) ∨ (t.kind = .Uint16 ∧ w = 16)
      ∨ (t.kind = .Uint32 ∧ w = 32) ∨ (t.kind = .Uint64 ∧ w = 64))
    (hs : parseSigned s.data = some n)
    (h1 : -(2 : Int) ^ 63 ≤ n) (h2 : n < (2 : Int) ^ 63) :
    ∃ fn, (baseUnmarshaler H sourceType t).1 = some fn
      ∧ (fn ⟨⟨.str s :: rest, e⟩, cache⟩ dest).err = none
      ∧ (loadUnsigned w (fn ⟨⟨.str s :: rest, e⟩, cache⟩ dest).dest : Int)
          = n % (2 : Int) ^ w := by
  have hmem := integer_alias sourceType hsrc
  obtain ⟨k, nm, c1, c2⟩ := t
  refine ⟨intInto w, ?_, ?_⟩
  · simp only [baseUnmarshaler, if_pos hmem]
    rcases hk with ⟨hk, h⟩ | ⟨hk, h⟩ | ⟨hk, h⟩ | ⟨hk, h⟩ <;> simp only at hk <;> subst hk <;>
      subst h <;> rfl
  · rw [intInto_present w s n rest e cache dest hs h1 h2]
    refine ⟨rfl, ?_⟩
    show (loadUnsigned w (storeBits w (wrapS w n) dest) : Int) = n % (2 : Int) ^ w
    rw [loadUnsigned_storeBits, wrapU_wrapS, wrapU_cast]

/-- Witness of C20: the text `-1` into a `uint64` field of an INT64 column;
the field then reads 18446744073709551615. -/
theorem integer_into_unsigned_witness :
    (parseSigned "-1".data = some (-1)
      ∧ loadUnsigned 64 (intInto 64 ⟨⟨[.str "-1"], none⟩, ""⟩ (.raw 0)).dest
          = 18446744073709551615)
    ∧ ∃ fn, (baseUnmarshaler sampleHost "INT64" { kind := .Uint64, name := "uint64" }).1
          = some fn
      ∧ (fn ⟨⟨.str "-1" :: [], none⟩, ""⟩ (.raw 0)).err = none
      ∧ (loadUnsigned 64 (fn ⟨⟨.str "-1" :: [], none⟩, ""⟩ (.raw 0)).dest : Int)
          = (-1) % (2 : Int) ^ 64 :=
  ⟨⟨by decide, by decide⟩,
   integer_into_unsigned sampleHost "INT64" { kind := .Uint64, name := "uint64" } 64
     "-1" (-1) [] none "" (.raw 0) (by decide)
     (Or.inr (Or.inr (Or.inr ⟨rfl, rfl⟩))) (by decide) (by decide) (by decide)⟩

end Unmarshaler
